import Mathlib

/-!
# cgol: Conway's Game of Life on a terminal (src/cgol.c)

A shallow embedding of the simulation core of `cgol.c`: the three cell
buffers, `check_state`, `tick`, `clear_field`, `init_field`, `color_switch`
and the body of the frame loop of `main`.

Modelling conventions.

* A buffer (`uint_fast8_t *`) is the list of its cells, each cell a natural
  number.  The three buffers of the program are distinct allocations, so the
  state carries three separate lists and `swap_array` exchanges two of them.
* Every C `int` that can be negative or is compared with one (dimensions,
  coordinates, loop bounds, the colour index) is an `Int`.  Loop counters that
  run upwards from 0 and the neighbour sum, which only adds cell values to 0,
  are `Nat` and are cast where the code uses them with an `int`.  Signed
  overflow is undefined in C, so no wrap-around is modelled for `int`.  The
  tick counter is an `unsigned long long`: it is a `Nat` and its increment is
  taken modulo `2 ^ 64`.
* A read or write outside an allocation has no defined behaviour; the
  operations return `Option` and such an access gives `none`.
-/

namespace Cgol

/-- Contents of one `uint_fast8_t` buffer, cell by cell. -/
abbrev Field := List Nat

/-- Largest value of an `unsigned long long`. -/
def ULLONG_MAX : Nat := 2 ^ 64 - 1

/-- Value of `(*arr)[idx]`, defined only inside the allocation. -/
def read_cell (arr : Field) (idx : Int) : Option Nat :=
  if 0 ≤ idx then arr[idx.toNat]? else none

/-- Effect of `(*arr)[idx] = v`, defined only inside the allocation. -/
def write_cell (arr : Field) (idx : Int) (v : Nat) : Option Field :=
  if 0 ≤ idx ∧ idx.toNat < arr.length then some (arr.set idx.toNat v) else none

/-- Pointer exchange of `swap_array`: the two buffers trade places. -/
def swap_array (ab : Field × Field) : Field × Field := (ab.2, ab.1)

/-- The matrix `k` of `check_state`: column `i` is the pair `(k[0][i], k[1][i])`. -/
def k_matrix (x y : Int) : List (Int × Int) :=
  List.zip [x - 1, x, x + 1, x - 1, x + 1, x - 1, x, x + 1]
    [y - 1, y - 1, y - 1, y, y, y + 1, y + 1, y + 1]

/-- One iteration of the summing loop of `check_state`. -/
def sum_step (arr : Field) (w h : Int) (sum : Nat) (k : Int × Int) : Option Nat :=
  if k.1 ≥ 0 ∧ k.1 < w ∧ k.2 ≥ 0 ∧ k.2 < h then
    (read_cell arr (k.2 * w + k.1)).map (fun c => sum + c)
  else some sum

/-- The summing loop of `check_state`, started from `sum = 0`. -/
def neighbour_sum (arr : Field) (w h x y : Int) : Option Nat :=
  (k_matrix x y).foldlM (sum_step arr w h) 0

/-- The function `check_state`: next state (0 or 1) of the cell `(x, y)`. -/
def check_state (arr : Field) (w h x y : Int) : Option Nat := do
  let sum ← neighbour_sum arr w h x y
  let cell ← read_cell arr (y * w + x)
  if cell ≠ 0 then
    pure (if sum = 2 ∨ sum = 3 then 1 else 0)
  else
    pure (if sum = 3 then 1 else 0)

/-- One iteration of the loop of `clear_field`. -/
def clear_step (arr : Field) (i : Nat) : Option Field := write_cell arr i 0

/-- The function `clear_field`: cells `0 .. length - 1` are set to 0. -/
def clear_field (arr : Field) (length : Int) : Option Field :=
  (List.range length.toNat).foldlM clear_step arr

/-- The buffers and the counter that `tick` works on. -/
structure Sim where
  arr : Field
  buf : Field
  hist : Field
  tick_count : Nat
deriving DecidableEq

/-- Body of the inner loop of `tick` for the cell `(i, j)`; the accumulator is
the scratch buffer together with `change_flag`. -/
def tick_cell (arr hist : Field) (w h : Int) (j i : Nat) (acc : Field × Bool) :
    Option (Field × Bool) := do
  let state ← check_state arr w h i j
  let old ← read_cell hist (j * w + i)
  let change_flag := if old ≠ state then true else acc.2
  let buf ← write_cell acc.1 (j * w + i) state
  pure (buf, change_flag)

/-- The inner loop of `tick`: row `j`, `i` from 0 to `w - 1`. -/
def tick_row (arr hist : Field) (w h : Int) (j : Nat) (acc : Field × Bool) :
    Option (Field × Bool) :=
  (List.range w.toNat).foldlM (fun a i => tick_cell arr hist w h j i a) acc

/-- The outer loop of `tick`: `j` from 0 to `h - 1`, starting with
`change_flag = 0`. -/
def tick_loop (arr buf hist : Field) (w h : Int) : Option (Field × Bool) :=
  (List.range h.toNat).foldlM (fun a j => tick_row arr hist w h j a) (buf, false)

/-- The call `memcpy(dst, src, n)` on one-byte cells. -/
def memcpy (dst src : Field) (n : Int) : Option Field :=
  if 0 ≤ n ∧ n.toNat ≤ dst.length ∧ n.toNat ≤ src.length then
    some (src.take n.toNat ++ dst.drop n.toNat)
  else none

/-- The function `tick`. -/
def tick (s : Sim) (w h : Int) : Option Sim := do
  let r ← tick_loop s.arr s.buf s.hist w h
  let change_flag := r.2
  let swapped := swap_array (s.arr, r.1)
  let arr := swapped.1
  let buf := swapped.2
  if !change_flag then
    pure { arr := arr, buf := buf, hist := s.hist, tick_count := ULLONG_MAX }
  else do
    let hist ← memcpy s.hist buf (w * h)
    pure { arr := arr, buf := buf, hist := hist,
           tick_count := (s.tick_count + 1) % 2 ^ 64 }

/-- Repeated calls of `tick`, as in the warm-up loop of `init_field` and in
successive frames. -/
def tick_n : Nat → Sim → Int → Int → Option Sim
  | 0, s, _, _ => some s
  | n + 1, s, w, h => (tick s w h).bind (fun t => tick_n n t w h)

/-- One iteration of the noise loop of `init_field`; `rand i` is the value of
the `i`-th call of `rand()`. -/
def seed_step (probability : Int) (rand : Nat → Nat) (arr : Field) (i : Nat) :
    Option Field :=
  write_cell arr i (if ((rand i : Int) % 100) < probability then 1 else 0)

/-- The function `init_field`: noise, then `ticks` warm-up ticks. -/
def init_field (s : Sim) (w h probability ticks : Int) (rand : Nat → Nat) :
    Option Sim := do
  let arr ← (List.range (w * h).toNat).foldlM (seed_step probability rand) s.arr
  tick_n ticks.toNat { s with arr := arr } w h

/-- The function `color_switch`; `%` of C truncates towards zero and the new
index is used to read `color_list`. -/
def color_switch (clr_idx step : Int) (color_list : List Int) (length : Int) :
    Option Int :=
  if length = 0 then none
  else
    let i1 := (clr_idx + step).tmod length
    let i2 := if i1 < 0 then i1 + length else i1
    if 0 ≤ i2 ∧ i2.toNat < color_list.length then some i2 else none

/-- The function `create_field`: `calloc` gives zero-filled storage. -/
def create_field (length : Int) : Field := List.replicate length.toNat 0

/-- The function `realloc_field` when the allocation succeeds: the buffer has
the new length, the old cells are kept as far as they go and the rest is
whatever the allocator left there (`junk`).  A request that is not positive
does not give a buffer and the program exits. -/
def realloc_field (arr : Field) (length : Int) (junk : Nat → Nat) : Option Field :=
  if 0 < length then
    some ((List.range length.toNat).map (fun i => arr.getD i (junk i)))
  else none

/-- Command-line parameters read by the frame loop. -/
structure Config where
  max_ticks : Int
  init_ticks : Int
  init_prob : Int
  color_list : List Int
  color_list_length : Int

/-- What one iteration of the frame loop receives from outside: the key from
`getch`, the size from `getmaxyx`, the values `rand()` will return and the
contents the allocator leaves in grown buffers. -/
structure FrameInput where
  c : Int
  _w : Int
  _h : Int
  rand : Nat → Nat
  junk_arr : Nat → Nat
  junk_buf : Nat → Nat
  junk_hist : Nat → Nat

/-- Variables of `main` that live across frames. -/
structure MainState where
  w : Int
  h : Int
  sim : Sim
  clr_idx : Int

/-- The branch of the if-chain of the frame loop that is taken. -/
inductive Action where
  | resize
  | reset
  | quit
  | color_forward
  | color_backward
  | nothing
deriving DecidableEq

/-- The conditions of the if-chain of the frame loop, in source order.  The
counter is compared with `max_ticks` converted to `unsigned long long`. -/
def dispatch (cfg : Config) (inp : FrameInput) (m : MainState) : Action :=
  if m.w ≠ inp._w ∨ m.h ≠ inp._h then Action.resize
  else if inp.c = 99 ∨ (m.sim.tick_count > (cfg.max_ticks % 2 ^ 64).toNat ∧ cfg.max_ticks > 0) then
    Action.reset
  else if inp.c = 113 ∨ inp.c = 10 ∨ inp.c = 27 then Action.quit
  else if inp.c = 102 then Action.color_forward
  else if inp.c = 70 then Action.color_backward
  else Action.nothing

/-- The branch taken when the screen was resized. -/
def do_resize (cfg : Config) (inp : FrameInput) (m : MainState) : Option MainState := do
  let w := inp._w
  let h := inp._h
  let arr ← realloc_field m.sim.arr (w * h) inp.junk_arr
  let buf ← realloc_field m.sim.buf (w * h) inp.junk_buf
  let hist ← realloc_field m.sim.hist (w * h) inp.junk_hist
  let arr ← clear_field arr (w * h)
  let s ← init_field { arr := arr, buf := buf, hist := hist, tick_count := m.sim.tick_count }
    w h cfg.init_prob cfg.init_ticks inp.rand
  pure { w := w, h := h, sim := { s with tick_count := 0 }, clr_idx := m.clr_idx }

/-- The branch taken on `c` or when the tick limit is passed. -/
def do_reset (cfg : Config) (inp : FrameInput) (m : MainState) : Option MainState := do
  let arr ← clear_field m.sim.arr (m.w * m.h)
  let s ← init_field { m.sim with arr := arr } m.w m.h cfg.init_prob cfg.init_ticks inp.rand
  let clr ← color_switch m.clr_idx 1 cfg.color_list cfg.color_list_length
  pure { m with sim := { s with tick_count := 0 }, clr_idx := clr }

/-- The if-chain of the frame loop; `none` inside stands for `break`. -/
def frame_action (cfg : Config) (inp : FrameInput) (m : MainState) :
    Option (Option MainState) :=
  match dispatch cfg inp m with
  | Action.resize => (do_resize cfg inp m).map some
  | Action.reset => (do_reset cfg inp m).map some
  | Action.quit => some none
  | Action.color_forward =>
      (color_switch m.clr_idx 1 cfg.color_list cfg.color_list_length).map
        (fun i => some { m with clr_idx := i })
  | Action.color_backward =>
      (color_switch m.clr_idx (-1) cfg.color_list cfg.color_list_length).map
        (fun i => some { m with clr_idx := i })
  | Action.nothing => some (some m)

/-- One iteration of the frame loop: the if-chain, then (unless the loop was
left) the drawing, which changes no variable, and one `tick`. -/
def frame (cfg : Config) (inp : FrameInput) (m : MainState) :
    Option (Option MainState) := do
  let r ← frame_action cfg inp m
  match r with
  | none => pure none
  | some m1 =>
      let s ← tick m1.sim m1.w m1.h
      pure (some { m1 with sim := s })

/-- The variables of `main` when the frame loop is entered. -/
def main_start : MainState :=
  { w := 1, h := 1,
    sim := { arr := create_field (1 * 1), buf := create_field (1 * 1),
             hist := create_field (1 * 1), tick_count := 0 },
    clr_idx := 0 }

/-! ## Vocabulary of the specification -/

/-- The eight offsets of the Moore neighbourhood: every `(dx, dy)` with
`dx, dy ∈ {-1, 0, 1}` other than `(0, 0)`. -/
def moore_offsets : List (Int × Int) :=
  (List.product [-1, 0, 1] [-1, 0, 1]).filter (fun d => decide (d ≠ (0, 0)))

/-- Position `p` lies inside `[0, w) × [0, h)`. -/
def in_grid (w h : Int) (p : Int × Int) : Bool :=
  decide (0 ≤ p.1 ∧ p.1 < w ∧ 0 ≤ p.2 ∧ p.2 < h)

/-- The cell at position `p` of the row-major grid is alive (not 0). -/
def alive (arr : Field) (w : Int) (p : Int × Int) : Bool :=
  decide (arr.getD (p.2 * w + p.1).toNat 0 ≠ 0)

/-- Number of alive cells among the Moore-adjacent positions of `(x, y)` that
lie inside the grid. -/
def alive_neighbours (arr : Field) (w h x y : Int) : Nat :=
  (moore_offsets.map (fun d => (x + d.1, y + d.2))).countP
    (fun p => in_grid w h p && alive arr w p)

/-- The grid of size `w * h` whose cell `(x, y)` is alive exactly when
`p x y` holds. -/
def grid_of (w h : Int) (p : Int → Int → Bool) : Field :=
  (List.range (w * h).toNat).map
    (fun (n : Nat) => if p ((n : Int) % w) ((n : Int) / w) = true then 1 else 0)

/-- Cells of the horizontal three-cell blinker centred at `(cx, cy)`. -/
def horizontal_blinker (cx cy x y : Int) : Bool :=
  decide (y = cy ∧ cx - 1 ≤ x ∧ x ≤ cx + 1)

/-- Cells of the vertical three-cell blinker centred at `(cx, cy)`. -/
def vertical_blinker (cx cy x y : Int) : Bool :=
  decide (x = cx ∧ cy - 1 ≤ y ∧ y ≤ cy + 1)

/-- The only live cell is `(px, py)`. -/
def single_cell (px py x y : Int) : Bool :=
  decide (x = px ∧ y = py)

/-- The parameters `main` uses when no option is given: `MAX_TICKS`,
`INIT_TICKS`, `INIT_AMOUNT` and the colours 0 to 7. -/
def default_config : Config :=
  { max_ticks := 240, init_ticks := 5, init_prob := 12,
    color_list := [0, 1, 2, 3, 4, 5, 6, 7], color_list_length := 8 }

/-- A frame in which no key is pressed and the terminal is 3 columns by 2
rows, with fixed values for `rand()` and for the contents of grown buffers. -/
def sample_input : FrameInput :=
  { c := -1, _w := 3, _h := 2, rand := fun i => 7 * i + 3,
    junk_arr := fun _ => 255, junk_buf := fun i => i, junk_hist := fun _ => 170 }

/-! ## Closed forms used in the proofs -/

/-- Cell `(x, y)` of a grid, with every position outside the grid read as 0. -/
def cell_at (arr : Field) (w h x y : Int) : Nat :=
  if 0 ≤ x ∧ x < w ∧ 0 ≤ y ∧ y < h then arr.getD (y * w + x).toNat 0 else 0

/-- Sum of the eight surrounding cells, positions outside the grid giving 0. -/
def around (arr : Field) (w h x y : Int) : Nat :=
  cell_at arr w h (x - 1) (y - 1) + cell_at arr w h x (y - 1) + cell_at arr w h (x + 1) (y - 1)
    + cell_at arr w h (x - 1) y + cell_at arr w h (x + 1) y
    + cell_at arr w h (x - 1) (y + 1) + cell_at arr w h x (y + 1) + cell_at arr w h (x + 1) (y + 1)

/-- The transition rule of `check_state` on a cell value and a neighbour sum. -/
def rule (cell sum : Nat) : Nat :=
  if cell ≠ 0 then (if sum = 2 ∨ sum = 3 then 1 else 0) else (if sum = 3 then 1 else 0)

/-- Generation computed by `tick` from `arr`, in row-major order. -/
def next_gen (arr : Field) (w h : Int) : Field :=
  (List.range (w * h).toNat).map
    (fun (n : Nat) => rule (cell_at arr w h ((n : Int) % w) ((n : Int) / w))
      (around arr w h ((n : Int) % w) ((n : Int) / w)))

/-- State of the scratch buffer and of `change_flag` once the first `n` cells
(row-major) have been processed. -/
def loop_state (arr buf hist : Field) (w h : Int) (n : Nat) : Field × Bool :=
  ((next_gen arr w h).take n ++ buf.drop n,
    decide (hist.take n ≠ (next_gen arr w h).take n))

/-- The three buffers of `s` have `w * h` cells each. -/
def sized (w h : Int) (s : Sim) : Prop :=
  (s.arr.length : Int) = w * h ∧ (s.buf.length : Int) = w * h ∧ (s.hist.length : Int) = w * h

/-- Value read at `(x, y)` from the grid of `p`: 1 on in-grid positions where
`p` holds, 0 elsewhere. -/
def live (w h : Int) (p : Int → Int → Bool) (x y : Int) : Nat :=
  if 0 ≤ x ∧ x < w ∧ 0 ≤ y ∧ y < h ∧ p x y = true then 1 else 0

instance (w h : Int) (s : Sim) : Decidable (sized w h s) := by
  unfold sized
  infer_instance

/-- A frame in which `q` is pressed while the terminal is 3 columns by 2
rows. -/
def quit_input : FrameInput := { sample_input with c := 113 }

/-- The state of `main` on a 3 by 2 terminal with a dead grid, the counter at
the sentinel and the colour index at 7. -/
def stagnant_state : MainState :=
  { w := 3, h := 2,
    sim := { arr := List.replicate 6 0, buf := List.replicate 6 0,
             hist := List.replicate 6 0, tick_count := ULLONG_MAX },
    clr_idx := 7 }

/-- The default parameters with the seeding probability set to 0. -/
def dead_seed_config : Config := { default_config with init_prob := 0 }

/-- The cells `(j, i)` in the order in which the two loops of `tick` reach
them. -/
def tick_cells (w h : Int) : List (Nat × Nat) :=
  (List.range h.toNat).flatMap (fun j => (List.range w.toNat).map (fun i => (j, i)))

/-! ## Cell indices -/

theorem idx_bound {w h x y : Int} (hx0 : 0 ≤ x) (hxw : x < w) (hy0 : 0 ≤ y) (hyh : y < h) :
    0 ≤ y * w + x ∧ y * w + x < w * h := by
  have hw : 0 ≤ w := by omega
  have h1 : 0 ≤ y * w := mul_nonneg hy0 hw
  have h2 : (y + 1) * w ≤ h * w := mul_le_mul_of_nonneg_right (by omega) hw
  constructor
  · omega
  · nlinarith

theorem idx_toNat_lt {w h x y : Int} {n : Nat} (hn : (n : Int) = w * h)
    (hx0 : 0 ≤ x) (hxw : x < w) (hy0 : 0 ≤ y) (hyh : y < h) :
    (y * w + x).toNat < n := by
  have := idx_bound hx0 hxw hy0 hyh
  omega

theorem read_cell_eq {arr : Field} {w h x y : Int} (ha : (arr.length : Int) = w * h)
    (hx0 : 0 ≤ x) (hxw : x < w) (hy0 : 0 ≤ y) (hyh : y < h) :
    read_cell arr (y * w + x) = some (cell_at arr w h x y) := by
  have hb := idx_bound hx0 hxw hy0 hyh
  have hlt := idx_toNat_lt ha hx0 hxw hy0 hyh
  simp [read_cell, cell_at, hb.1, hx0, hxw, hy0, hyh, List.getD_eq_getElem?_getD,
    List.getElem?_eq_getElem hlt]

theorem sum_step_eq {arr : Field} {w h : Int} (ha : (arr.length : Int) = w * h)
    (sum : Nat) (k : Int × Int) :
    sum_step arr w h sum k = some (sum + cell_at arr w h k.1 k.2) := by
  unfold sum_step
  split_ifs with hk
  · rw [read_cell_eq ha hk.1 hk.2.1 hk.2.2.1 hk.2.2.2]; rfl
  · have : cell_at arr w h k.1 k.2 = 0 := by
      unfold cell_at
      rw [if_neg]
      intro hc
      exact hk ⟨hc.1, hc.2.1, hc.2.2.1, hc.2.2.2⟩
    simp [this]

theorem neighbour_sum_eq {arr : Field} {w h : Int} (ha : (arr.length : Int) = w * h)
    (x y : Int) : neighbour_sum arr w h x y = some (around arr w h x y) := by
  simp [neighbour_sum, k_matrix, List.foldlM, sum_step_eq ha, around]

theorem check_state_eq {arr : Field} {w h x y : Int} (ha : (arr.length : Int) = w * h)
    (hx0 : 0 ≤ x) (hxw : x < w) (hy0 : 0 ≤ y) (hyh : y < h) :
    check_state arr w h x y = some (rule (cell_at arr w h x y) (around arr w h x y)) := by
  unfold check_state
  rw [neighbour_sum_eq ha, read_cell_eq ha hx0 hxw hy0 hyh]
  simp only [rule, Option.bind_eq_bind, Option.some_bind]
  split_ifs <;> rfl

/-! ## The loops of `tick` -/

theorem next_gen_length (arr : Field) (w h : Int) :
    (next_gen arr w h).length = (w * h).toNat := by
  simp [next_gen]

theorem next_gen_get {arr : Field} {w h x y : Int}
    (hx0 : 0 ≤ x) (hxw : x < w) (hy0 : 0 ≤ y) (hyh : y < h) :
    (next_gen arr w h)[(y * w + x).toNat]? =
      some (rule (cell_at arr w h x y) (around arr w h x y)) := by
  have hb := idx_bound hx0 hxw hy0 hyh
  have hlt : (y * w + x).toNat < (w * h).toNat := by omega
  have hmod : (y * w + x) % w = x := by
    rw [Int.add_comm, Int.add_mul_emod_self, Int.emod_eq_of_lt hx0 hxw]
  have hdiv : (y * w + x) / w = y := by
    rw [Int.add_comm, Int.add_mul_ediv_right _ _ (by omega : w ≠ 0), Int.ediv_eq_zero_of_lt hx0 hxw]
    simp
  simp [next_gen, List.getElem?_map, List.getElem?_range hlt, Int.toNat_of_nonneg hb.1, hmod, hdiv]

theorem take_succ_of_get {l : List Nat} {n : Nat} {v : Nat} (hv : l[n]? = some v) :
    l.take (n + 1) = l.take n ++ [v] := by
  rw [List.take_succ, hv]; rfl

theorem set_take_drop {new buf : Field} {n v : Nat} (hv : new[n]? = some v)
    (hn : n < buf.length) :
    (new.take n ++ buf.drop n).set n v = new.take (n + 1) ++ buf.drop (n + 1) := by
  have hnl : n < new.length := by
    rcases Nat.lt_or_ge n new.length with h | h
    · exact h
    · rw [List.getElem?_eq_none h] at hv; cases hv
  have hlen : (new.take n).length = n := by simp; omega
  rw [List.set_append_right _ _ (by omega), hlen, Nat.sub_self, List.drop_eq_getElem_cons hn,
    take_succ_of_get hv]
  simp only [List.set_cons_zero, List.append_assoc, List.singleton_append]

theorem tick_cell_eq {arr buf hist : Field} {w h : Int} (ha : (arr.length : Int) = w * h)
    (hb : (buf.length : Int) = w * h) (hh : (hist.length : Int) = w * h)
    {i j : Nat} (hi : (i : Int) < w) (hj : (j : Int) < h) :
    tick_cell arr hist w h j i (loop_state arr buf hist w h (j * w.toNat + i)) =
      some (loop_state arr buf hist w h (j * w.toNat + i + 1)) := by
  have hi0 : (0 : Int) ≤ i := Int.ofNat_nonneg i
  have hj0 : (0 : Int) ≤ j := Int.ofNat_nonneg j
  have hbd := idx_bound hi0 hi hj0 hj
  have hidx : ((j : Int) * w + i).toNat = j * w.toNat + i := by
    have hw : ((w.toNat : Nat) : Int) = w := Int.toNat_of_nonneg (by omega)
    have : (j : Int) * w + i = ((j * w.toNat + i : Nat) : Int) := by
      push_cast; rw [hw]
    rw [this, Int.toNat_ofNat]
  have hlt := idx_toNat_lt hh hi0 hi hj0 hj
  have hltb := idx_toNat_lt hb hi0 hi hj0 hj
  rw [hidx] at hlt hltb
  have hnew := @next_gen_get arr w h _ _ hi0 hi hj0 hj
  rw [hidx] at hnew
  have hhist : hist[j * w.toNat + i]? = some (hist[j * w.toNat + i]) :=
    List.getElem?_eq_getElem hlt
  unfold tick_cell
  rw [check_state_eq ha hi0 hi hj0 hj]
  simp only [read_cell, hbd.1, if_true, hidx, hhist, Option.bind_eq_bind, Option.some_bind,
    write_cell, loop_state]
  have hlen : ((next_gen arr w h).take (j * w.toNat + i) ++ buf.drop (j * w.toNat + i)).length
      = buf.length := by
    have := next_gen_length arr w h
    simp only [List.length_append, List.length_take, List.length_drop]
    omega
  rw [hlen, if_pos ⟨trivial, hltb⟩, set_take_drop hnew hltb]
  simp only [Option.some_bind, pure, Option.some.injEq, Prod.mk.injEq, true_and]
  rw [take_succ_of_get hnew, take_succ_of_get hhist]
  have hl : (List.take (j * w.toNat + i) hist).length
      = (List.take (j * w.toNat + i) (next_gen arr w h)).length := by
    have := next_gen_length arr w h
    simp only [List.length_take]
    omega
  by_cases hne : hist[j * w.toNat + i] = rule (cell_at arr w h i j) (around arr w h i j)
  · rw [hne, if_neg (by simp)]
    congr 1
    simp only [ne_eq, List.append_left_inj]
  · rw [if_pos hne]
    symm
    rw [decide_eq_true_iff]
    intro hc
    have := (List.append_inj hc hl).2
    simp only [List.cons.injEq, and_true] at this
    exact hne this

theorem tick_row_upto {arr buf hist : Field} {w h : Int} (ha : (arr.length : Int) = w * h)
    (hb : (buf.length : Int) = w * h) (hh : (hist.length : Int) = w * h)
    {j : Nat} (hj : (j : Int) < h) (i : Nat) (hi : i ≤ w.toNat) :
    (List.range i).foldlM (fun a i => tick_cell arr hist w h j i a)
        (loop_state arr buf hist w h (j * w.toNat)) =
      some (loop_state arr buf hist w h (j * w.toNat + i)) := by
  induction i with
  | zero => rfl
  | succ i ih =>
    rw [List.range_succ, List.foldlM_append, ih (by omega)]
    simp only [Option.bind_eq_bind, Option.some_bind, List.foldlM_cons, List.foldlM_nil]
    rw [tick_cell_eq ha hb hh (by omega) hj]
    rfl

theorem tick_row_eq {arr buf hist : Field} {w h : Int} (ha : (arr.length : Int) = w * h)
    (hb : (buf.length : Int) = w * h) (hh : (hist.length : Int) = w * h)
    {j : Nat} (hj : (j : Int) < h) :
    tick_row arr hist w h j (loop_state arr buf hist w h (j * w.toNat)) =
      some (loop_state arr buf hist w h ((j + 1) * w.toNat)) := by
  unfold tick_row
  rw [tick_row_upto ha hb hh hj w.toNat (le_refl _)]
  congr 2
  ring

theorem tick_loop_upto {arr buf hist : Field} {w h : Int} (ha : (arr.length : Int) = w * h)
    (hb : (buf.length : Int) = w * h) (hh : (hist.length : Int) = w * h)
    (j : Nat) (hj : j ≤ h.toNat) :
    (List.range j).foldlM (fun a j => tick_row arr hist w h j a) (buf, false) =
      some (loop_state arr buf hist w h (j * w.toNat)) := by
  induction j with
  | zero => simp [loop_state]
  | succ j ih =>
    rw [List.range_succ, List.foldlM_append, ih (by omega)]
    simp only [Option.bind_eq_bind, Option.some_bind, List.foldlM_cons, List.foldlM_nil]
    rw [tick_row_eq ha hb hh (by omega)]
    rfl

theorem toNat_mul_toNat {w h : Int} {n : Nat} (hn : (n : Int) = w * h) (hw : 0 ≤ w) (hh : 0 ≤ h) :
    h.toNat * w.toNat = n := by
  have h1 : ((h.toNat * w.toNat : Nat) : Int) = (n : Int) := by
    push_cast
    rw [Int.toNat_of_nonneg hw, Int.toNat_of_nonneg hh, hn, mul_comm]
  exact_mod_cast h1

/-- The two loops of `tick` fill the scratch buffer with the next generation
and raise `change_flag` exactly when that generation is not the history. -/
theorem tick_loop_eq {arr buf hist : Field} {w h : Int} (hw : 0 ≤ w) (hh0 : 0 ≤ h)
    (ha : (arr.length : Int) = w * h) (hb : (buf.length : Int) = w * h)
    (hh : (hist.length : Int) = w * h) :
    tick_loop arr buf hist w h =
      some (next_gen arr w h, decide (hist ≠ next_gen arr w h)) := by
  unfold tick_loop
  rw [tick_loop_upto ha hb hh h.toNat (le_refl _)]
  have hn := next_gen_length arr w h
  have e1 := toNat_mul_toNat hb hw hh0
  have e2 := toNat_mul_toNat hh hw hh0
  have e3 : (w * h).toNat = buf.length := by omega
  simp only [loop_state, e1]
  rw [List.take_of_length_le (by omega), List.drop_of_length_le (le_refl _),
    List.take_of_length_le (by omega), List.append_nil]

/-- Closed form of one `tick` on buffers of the right size. -/
theorem tick_eq {s : Sim} {w h : Int} (hw : 0 ≤ w) (hh0 : 0 ≤ h)
    (ha : (s.arr.length : Int) = w * h) (hb : (s.buf.length : Int) = w * h)
    (hh : (s.hist.length : Int) = w * h) :
    tick s w h = some
      (if s.hist = next_gen s.arr w h then
        { arr := next_gen s.arr w h, buf := s.arr, hist := s.hist, tick_count := ULLONG_MAX }
      else
        { arr := next_gen s.arr w h, buf := s.arr, hist := s.arr,
          tick_count := (s.tick_count + 1) % 2 ^ 64 }) := by
  unfold tick
  rw [tick_loop_eq hw hh0 ha hb hh]
  simp only [Option.bind_eq_bind, Option.some_bind, swap_array]
  by_cases hc : s.hist = next_gen s.arr w h
  · rw [if_pos hc]
    simp [hc]
  · rw [if_neg hc]
    have hm : memcpy s.hist s.arr (w * h) = some s.arr := by
      unfold memcpy
      have h1 : (w * h).toNat = s.arr.length := by omega
      have h2 : (w * h).toNat = s.hist.length := by omega
      rw [if_pos ⟨by rw [← ha]; exact Int.ofNat_nonneg _, by omega, by omega⟩, h1]
      rw [List.take_of_length_le (le_refl _), List.drop_of_length_le (by omega), List.append_nil]
    simp [hc, hm]

/-! ## Neighbour sums and neighbour counts -/

theorem getD_zero_or_one {arr : Field} (h01 : ∀ c ∈ arr, c = 0 ∨ c = 1) (i : Nat) :
    arr.getD i 0 = 0 ∨ arr.getD i 0 = 1 := by
  rcases Nat.lt_or_ge i arr.length with hi | hi
  · rw [List.getD_eq_getElem _ _ hi]
    exact h01 _ (List.getElem_mem hi)
  · left
    rw [List.getD_eq_default _ _ hi]

theorem cell_at_indicator {arr : Field} (h01 : ∀ c ∈ arr, c = 0 ∨ c = 1) (w h x y : Int) :
    cell_at arr w h x y = if (in_grid w h (x, y) && alive arr w (x, y)) = true then 1 else 0 := by
  unfold cell_at in_grid alive
  by_cases hg : 0 ≤ x ∧ x < w ∧ 0 ≤ y ∧ y < h
  · simp only [hg, and_self, if_true, decide_True, Bool.true_and, decide_eq_true_eq]
    rcases getD_zero_or_one h01 (y * w + x).toNat with h0 | h1
    · rw [h0]; rfl
    · rw [h1]; rfl
  · simp [hg]

theorem moore_offsets_eq :
    moore_offsets = [(-1, -1), (-1, 0), (-1, 1), (0, -1), (0, 1), (1, -1), (1, 0), (1, 1)] := by
  decide

theorem around_eq_alive_neighbours {arr : Field} (h01 : ∀ c ∈ arr, c = 0 ∨ c = 1)
    (w h x y : Int) : around arr w h x y = alive_neighbours arr w h x y := by
  unfold around alive_neighbours
  simp only [cell_at_indicator h01, moore_offsets_eq, List.map_cons, List.map_nil,
    List.countP_cons, List.countP_nil]
  simp only [Int.add_neg_one, add_zero, zero_add]
  omega

theorem rule_zero_or_one (c n : Nat) : rule c n = 0 ∨ rule c n = 1 := by
  unfold rule
  split_ifs <;> simp

theorem rule_eq_one_iff {c n : Nat} (hc : c = 0 ∨ c = 1) :
    rule c n = 1 ↔ (c = 1 ∧ (n = 2 ∨ n = 3)) ∨ (c = 0 ∧ n = 3) := by
  unfold rule
  rcases hc with h | h
  · subst h; simp
  · subst h; simp; omega

theorem cell_at_get {arr : Field} {w h x y : Int} (ha : (arr.length : Int) = w * h)
    (hx0 : 0 ≤ x) (hxw : x < w) (hy0 : 0 ≤ y) (hyh : y < h) :
    arr[(y * w + x).toNat]? = some (cell_at arr w h x y) := by
  have := read_cell_eq ha hx0 hxw hy0 hyh
  have hb := idx_bound hx0 hxw hy0 hyh
  simpa [read_cell, hb.1] using this

/-! ## The transition rule -/

/-- C1: for `w, h ≥ 1` and an active grid of length `w * h` with cells 0 or 1,
`tick` returns, and every cell `(x, y)` of the new active grid is 0 or 1 and is
alive iff the old cell was alive with 2 or 3 alive in-grid Moore neighbours or
dead with exactly 3, the count being taken on the old grid; the new active grid
is the same for any other scratch, history and counter. -/
theorem tick_applies_life_rule (w h : Int) (hw : 1 ≤ w) (hh : 1 ≤ h) (s : Sim)
    (ha : (s.arr.length : Int) = w * h) (hb : (s.buf.length : Int) = w * h)
    (hhist : (s.hist.length : Int) = w * h) (h01 : ∀ c ∈ s.arr, c = 0 ∨ c = 1) :
    ∃ t, tick s w h = some t ∧ (t.arr.length : Int) = w * h ∧
      (∀ x y : Int, 0 ≤ x → x < w → 0 ≤ y → y < h →
        ∃ old new, s.arr[(y * w + x).toNat]? = some old ∧
          t.arr[(y * w + x).toNat]? = some new ∧ (new = 0 ∨ new = 1) ∧
          (new = 1 ↔
            (old = 1 ∧ (alive_neighbours s.arr w h x y = 2 ∨ alive_neighbours s.arr w h x y = 3))
            ∨ (old = 0 ∧ alive_neighbours s.arr w h x y = 3))) ∧
      (∀ s2 : Sim, s2.arr = s.arr → (s2.buf.length : Int) = w * h →
        (s2.hist.length : Int) = w * h → ∃ t2, tick s2 w h = some t2 ∧ t2.arr = t.arr) := by
  have hw0 : 0 ≤ w := by omega
  have hh0 : 0 ≤ h := by omega
  have hlen : ((next_gen s.arr w h).length : Int) = w * h := by
    rw [next_gen_length]; omega
  refine ⟨_, tick_eq hw0 hh0 ha hb hhist, ?_, ?_, ?_⟩
  · split_ifs <;> exact hlen
  · intro x y hx0 hxw hy0 hyh
    refine ⟨cell_at s.arr w h x y, rule (cell_at s.arr w h x y) (around s.arr w h x y),
      cell_at_get ha hx0 hxw hy0 hyh, ?_, rule_zero_or_one _ _, ?_⟩
    · split_ifs <;> exact next_gen_get hx0 hxw hy0 hyh
    · rw [← around_eq_alive_neighbours h01]
      apply rule_eq_one_iff
      have := getD_zero_or_one h01 (y * w + x).toNat
      unfold cell_at
      rw [if_pos ⟨hx0, hxw, hy0, hyh⟩]
      exact this
  · intro s2 h2 hb2 hh2
    refine ⟨_, tick_eq hw0 hh0 (h2 ▸ ha) hb2 hh2, ?_⟩
    rw [h2]
    split_ifs <;> rfl

/-- C1, witness: the 3x3 grid with a live middle row. -/
theorem tick_applies_life_rule_witness :
    ((1 : Int) ≤ 3 ∧ (1 : Int) ≤ 3 ∧
      (∀ c ∈ [0, 0, 0, 1, 1, 1, 0, 0, 0], c = 0 ∨ c = 1)) ∧
    ∃ t, tick ⟨[0, 0, 0, 1, 1, 1, 0, 0, 0], List.replicate 9 7, List.replicate 9 5, 0⟩ 3 3 = some t ∧
      (t.arr.length : Int) = 3 * 3 ∧
      (∀ x y : Int, 0 ≤ x → x < 3 → 0 ≤ y → y < 3 →
        ∃ old new, [0, 0, 0, 1, 1, 1, 0, 0, 0][(y * 3 + x).toNat]? = some old ∧
          t.arr[(y * 3 + x).toNat]? = some new ∧ (new = 0 ∨ new = 1) ∧
          (new = 1 ↔
            (old = 1 ∧ (alive_neighbours [0, 0, 0, 1, 1, 1, 0, 0, 0] 3 3 x y = 2
              ∨ alive_neighbours [0, 0, 0, 1, 1, 1, 0, 0, 0] 3 3 x y = 3))
            ∨ (old = 0 ∧ alive_neighbours [0, 0, 0, 1, 1, 1, 0, 0, 0] 3 3 x y = 3))) ∧
      (∀ s2 : Sim, s2.arr = [0, 0, 0, 1, 1, 1, 0, 0, 0] → (s2.buf.length : Int) = 3 * 3 →
        (s2.hist.length : Int) = 3 * 3 → ∃ t2, tick s2 3 3 = some t2 ∧ t2.arr = t.arr) :=
  ⟨⟨by decide, by decide, by decide⟩,
    tick_applies_life_rule 3 3 (by decide) (by decide)
      ⟨[0, 0, 0, 1, 1, 1, 0, 0, 0], List.replicate 9 7, List.replicate 9 5, 0⟩
      (by decide) (by decide) (by decide) (by decide)⟩

/-! ## No wrap-around -/

theorem cell_at_congr {a b : Field} {w h x y : Int}
    (hab : 0 ≤ x → x < w → 0 ≤ y → y < h →
      a[(y * w + x).toNat]? = b[(y * w + x).toNat]?) :
    cell_at a w h x y = cell_at b w h x y := by
  unfold cell_at
  by_cases hg : 0 ≤ x ∧ x < w ∧ 0 ≤ y ∧ y < h
  · rw [if_pos hg, if_pos hg, List.getD_eq_getElem?_getD, List.getD_eq_getElem?_getD,
      hab hg.1 hg.2.1 hg.2.2.1 hg.2.2.2]
  · rw [if_neg hg, if_neg hg]

theorem around_congr {a b : Field} {w h x y : Int}
    (hab : ∀ x2 y2 : Int, 0 ≤ x2 → x2 < w → 0 ≤ y2 → y2 < h →
      x - 1 ≤ x2 → x2 ≤ x + 1 → y - 1 ≤ y2 → y2 ≤ y + 1 →
      a[(y2 * w + x2).toNat]? = b[(y2 * w + x2).toNat]?) :
    around a w h x y = around b w h x y := by
  unfold around
  have e : ∀ x2 y2 : Int, x - 1 ≤ x2 → x2 ≤ x + 1 → y - 1 ≤ y2 → y2 ≤ y + 1 →
      cell_at a w h x2 y2 = cell_at b w h x2 y2 := by
    intro x2 y2 h1 h2 h3 h4
    exact cell_at_congr (fun g1 g2 g3 g4 => hab x2 y2 g1 g2 g3 g4 h1 h2 h3 h4)
  rw [e (x - 1) (y - 1) (by omega) (by omega) (by omega) (by omega),
    e x (y - 1) (by omega) (by omega) (by omega) (by omega),
    e (x + 1) (y - 1) (by omega) (by omega) (by omega) (by omega),
    e (x - 1) y (by omega) (by omega) (by omega) (by omega),
    e (x + 1) y (by omega) (by omega) (by omega) (by omega),
    e (x - 1) (y + 1) (by omega) (by omega) (by omega) (by omega),
    e x (y + 1) (by omega) (by omega) (by omega) (by omega),
    e (x + 1) (y + 1) (by omega) (by omega) (by omega) (by omega)]

theorem check_state_local {a b : Field} {w h x y : Int}
    (ha : (a.length : Int) = w * h) (hb : (b.length : Int) = w * h)
    (hx0 : 0 ≤ x) (hxw : x < w) (hy0 : 0 ≤ y) (hyh : y < h)
    (hab : ∀ x2 y2 : Int, 0 ≤ x2 → x2 < w → 0 ≤ y2 → y2 < h →
      x - 1 ≤ x2 → x2 ≤ x + 1 → y - 1 ≤ y2 → y2 ≤ y + 1 →
      a[(y2 * w + x2).toNat]? = b[(y2 * w + x2).toNat]?) :
    ∃ v, check_state a w h x y = some v ∧ check_state b w h x y = some v := by
  refine ⟨_, check_state_eq ha hx0 hxw hy0 hyh, ?_⟩
  rw [check_state_eq hb hx0 hxw hy0 hyh, around_congr hab]
  rw [cell_at_congr (fun g1 g2 g3 g4 =>
    hab x y g1 g2 g3 g4 (by omega) (by omega) (by omega) (by omega))]

theorem cell_at_outside {arr : Field} {w h x y : Int}
    (ho : ¬ (0 ≤ x ∧ x < w ∧ 0 ≤ y ∧ y < h)) : cell_at arr w h x y = 0 := by
  unfold cell_at
  rw [if_neg ho]

/-- C2, counterexample: on the 2x2 grid the value of the cell `(1, 0)`, the last
of row 0, decides the next state of `(0, 1)`: it is counted as its neighbour. -/
theorem row_end_counted_when_width_two :
    check_state [1, 1, 0, 1] 2 2 0 1 = some 1 ∧ check_state [1, 0, 0, 1] 2 2 0 1 = some 0 := by
  decide

/-- C2, amended: for `w, h ≥ 1` the result of `check_state` at `(x, y)` is
defined and is the same on two grids of length `w * h` that agree on the
in-grid cells within distance 1 of `(x, y)` in both coordinates; at the corner
`(0, 0)` the sum is that of the in-grid cells among `(1, 0)`, `(0, 1)`, `(1, 1)`;
and for `w ≥ 3` the cell `(w - 1, y)` has no influence on the next state of
`(0, y + 1)`. -/
theorem check_state_no_wraparound (w h : Int) (hw : 1 ≤ w) (hh : 1 ≤ h) (a : Field)
    (ha : (a.length : Int) = w * h) :
    (∀ (b : Field) (x y : Int), (b.length : Int) = w * h →
      0 ≤ x → x < w → 0 ≤ y → y < h →
      (∀ x2 y2 : Int, 0 ≤ x2 → x2 < w → 0 ≤ y2 → y2 < h →
        x - 1 ≤ x2 → x2 ≤ x + 1 → y - 1 ≤ y2 → y2 ≤ y + 1 →
        a[(y2 * w + x2).toNat]? = b[(y2 * w + x2).toNat]?) →
      ∃ v, check_state a w h x y = some v ∧ check_state b w h x y = some v) ∧
    neighbour_sum a w h 0 0 =
      some ((if 1 < w then a.getD 1 0 else 0) + (if 1 < h then a.getD w.toNat 0 else 0)
        + (if 1 < w ∧ 1 < h then a.getD (w + 1).toNat 0 else 0)) ∧
    (3 ≤ w → ∀ (y : Int) (v : Nat), 0 ≤ y → y + 1 < h →
      check_state (a.set (y * w + (w - 1)).toNat v) w h 0 (y + 1) =
        check_state a w h 0 (y + 1)) := by
  refine ⟨?_, ?_, ?_⟩
  · intro b x y hb hx0 hxw hy0 hyh hab
    exact check_state_local ha hb hx0 hxw hy0 hyh hab
  · rw [neighbour_sum_eq ha]
    unfold around
    rw [cell_at_outside (x := 0 - 1) (y := 0 - 1) (by omega),
      cell_at_outside (x := 0) (y := 0 - 1) (by omega),
      cell_at_outside (x := 0 + 1) (y := 0 - 1) (by omega),
      cell_at_outside (x := 0 - 1) (y := 0) (by omega),
      cell_at_outside (x := 0 - 1) (y := 0 + 1) (by omega)]
    unfold cell_at
    congr 1
    have e1 : ((0 : Int) * w + (0 + 1)).toNat = 1 := by simp
    have e2 : (((0 : Int) + 1) * w + 0).toNat = w.toNat := by simp
    have e3 : (((0 : Int) + 1) * w + (0 + 1)).toNat = (w + 1).toNat := by simp
    rw [e1, e2, e3]
    have c1 : ((0 : Int) ≤ 0 + 1 ∧ (0 : Int) + 1 < w ∧ (0 : Int) ≤ 0 ∧ 0 < h) ↔ 1 < w := by omega
    have c2 : ((0 : Int) ≤ 0 ∧ 0 < w ∧ (0 : Int) ≤ 0 + 1 ∧ (0 : Int) + 1 < h) ↔ 1 < h := by omega
    have c3 : ((0 : Int) ≤ 0 + 1 ∧ (0 : Int) + 1 < w ∧ (0 : Int) ≤ 0 + 1 ∧ (0 : Int) + 1 < h) ↔
        (1 < w ∧ 1 < h) := by omega
    simp only [c1, c2, c3]
    omega
  · intro hw3 y v hy0 hyh
    have hlen : (((a.set (y * w + (w - 1)).toNat v).length : Nat) : Int) = w * h := by
      rw [List.length_set]; exact ha
    obtain ⟨r, h1, h2⟩ := check_state_local (x := 0) (y := y + 1) hlen ha (by omega) (by omega)
      (by omega) hyh (by
        intro x2 y2 g1 g2 g3 g4 g5 g6 g7 g8
        apply List.getElem?_set_ne
        have hy2 : y2 = y ∨ y2 = y + 1 ∨ y2 = y + 2 := by omega
        have hx2 : x2 = 0 ∨ x2 = 1 := by omega
        have hyw : 0 ≤ y * w := mul_nonneg hy0 (by omega)
        have m1 : (y + 1) * w = y * w + w := by ring
        have m2 : (y + 2) * w = y * w + 2 * w := by ring
        rcases hy2 with e | e | e <;> rcases hx2 with f | f <;> subst e <;> subst f <;> omega)
    rw [h1, h2]

/-- C2, witness: the all-alive 10x10 grid. -/
theorem check_state_no_wraparound_witness :
    ((1 : Int) ≤ 10 ∧ (1 : Int) ≤ 10 ∧ (((List.replicate 100 1).length : Nat) : Int) = 10 * 10) ∧
    ((∀ (b : Field) (x y : Int), (b.length : Int) = 10 * 10 →
      0 ≤ x → x < 10 → 0 ≤ y → y < 10 →
      (∀ x2 y2 : Int, 0 ≤ x2 → x2 < 10 → 0 ≤ y2 → y2 < 10 →
        x - 1 ≤ x2 → x2 ≤ x + 1 → y - 1 ≤ y2 → y2 ≤ y + 1 →
        (List.replicate 100 1)[(y2 * 10 + x2).toNat]? = b[(y2 * 10 + x2).toNat]?) →
      ∃ v, check_state (List.replicate 100 1) 10 10 x y = some v ∧
        check_state b 10 10 x y = some v) ∧
    neighbour_sum (List.replicate 100 1) 10 10 0 0 =
      some ((if (1 : Int) < 10 then (List.replicate 100 1).getD 1 0 else 0)
        + (if (1 : Int) < 10 then (List.replicate 100 1).getD (10 : Int).toNat 0 else 0)
        + (if (1 : Int) < 10 ∧ (1 : Int) < 10 then
            (List.replicate 100 1).getD ((10 : Int) + 1).toNat 0 else 0)) ∧
    ((3 : Int) ≤ 10 → ∀ (y : Int) (v : Nat), 0 ≤ y → y + 1 < 10 →
      check_state ((List.replicate 100 1).set (y * 10 + (10 - 1)).toNat v) 10 10 0 (y + 1) =
        check_state (List.replicate 100 1) 10 10 0 (y + 1))) :=
  ⟨⟨by decide, by decide, by decide⟩,
    check_state_no_wraparound 10 10 (by decide) (by decide) (List.replicate 100 1) (by decide)⟩

/-! ## Buffer sizes along a run -/

theorem tick_sized {w h : Int} (hw : 0 ≤ w) (hh : 0 ≤ h) {s : Sim} (hs : sized w h s) :
    ∃ t, tick s w h = some t ∧ sized w h t ∧ t.arr = next_gen s.arr w h ∧ t.buf = s.arr := by
  obtain ⟨ha, hb, hhist⟩ := hs
  have hlen : ((next_gen s.arr w h).length : Int) = w * h := by
    rw [next_gen_length]; omega
  refine ⟨_, tick_eq hw hh ha hb hhist, ?_, ?_, ?_⟩
  · split_ifs
    · exact ⟨hlen, ha, hhist⟩
    · exact ⟨hlen, ha, ha⟩
  · split_ifs <;> rfl
  · split_ifs <;> rfl

theorem tick_n_sized {w h : Int} (hw : 0 ≤ w) (hh : 0 ≤ h) (n : Nat) :
    ∀ {s : Sim}, sized w h s → ∃ t, tick_n n s w h = some t ∧ sized w h t := by
  induction n with
  | zero => intro s hs; exact ⟨s, rfl, hs⟩
  | succ n ih =>
    intro s hs
    obtain ⟨t, ht, hts, -, -⟩ := tick_sized hw hh hs
    obtain ⟨u, hu, hus⟩ := ih hts
    exact ⟨u, by simp [tick_n, ht, hu], hus⟩

/-! ## The dead grid -/

theorem cell_at_dead {arr : Field} (hd : ∀ c ∈ arr, c = 0) (w h x y : Int) :
    cell_at arr w h x y = 0 := by
  unfold cell_at
  split_ifs
  · rcases Nat.lt_or_ge (y * w + x).toNat arr.length with hi | hi
    · rw [List.getD_eq_getElem _ _ hi]
      exact hd _ (List.getElem_mem hi)
    · rw [List.getD_eq_default _ _ hi]
  · rfl

theorem next_gen_dead {arr : Field} (hd : ∀ c ∈ arr, c = 0) (w h : Int) :
    ∀ c ∈ next_gen arr w h, c = 0 := by
  intro c hc
  unfold next_gen at hc
  rw [List.mem_map] at hc
  obtain ⟨n, -, rfl⟩ := hc
  simp [around, cell_at_dead hd, rule]

theorem tick_n_dead {w h : Int} (hw : 0 ≤ w) (hh : 0 ≤ h) (n : Nat) :
    ∀ {s : Sim}, sized w h s → (∀ c ∈ s.arr, c = 0) →
      ∃ t, tick_n n s w h = some t ∧ sized w h t ∧ ∀ c ∈ t.arr, c = 0 := by
  induction n with
  | zero => intro s hs hd; exact ⟨s, rfl, hs, hd⟩
  | succ n ih =>
    intro s hs hd
    obtain ⟨t, ht, hts, hta, -⟩ := tick_sized hw hh hs
    obtain ⟨u, hu, hus, hud⟩ := ih hts (by rw [hta]; exact next_gen_dead hd w h)
    exact ⟨u, by simp [tick_n, ht, hu], hus, hud⟩

/-- C3: for `w, h ≥ 1` and an all-dead active grid of length `w * h`, `tick`
returns an all-dead active grid, and so does any number `n` of ticks, for every
content of the scratch and history buffers and every counter. -/
theorem dead_grid_stays_dead (w h : Int) (hw : 1 ≤ w) (hh : 1 ≤ h) (s : Sim)
    (ha : (s.arr.length : Int) = w * h) (hb : (s.buf.length : Int) = w * h)
    (hhist : (s.hist.length : Int) = w * h) (hd : ∀ c ∈ s.arr, c = 0) :
    (∃ t, tick s w h = some t ∧ (t.arr.length : Int) = w * h ∧ ∀ c ∈ t.arr, c = 0) ∧
    ∀ n : Nat, ∃ t, tick_n n s w h = some t ∧ (t.arr.length : Int) = w * h ∧
      ∀ c ∈ t.arr, c = 0 := by
  have hs : sized w h s := ⟨ha, hb, hhist⟩
  constructor
  · obtain ⟨t, ht, hts, hta, -⟩ := tick_sized (by omega) (by omega) hs
    exact ⟨t, ht, hts.1, by rw [hta]; exact next_gen_dead hd w h⟩
  · intro n
    obtain ⟨t, ht, hts, htd⟩ := tick_n_dead (by omega) (by omega) n hs hd
    exact ⟨t, ht, hts.1, htd⟩

/-- C3, witness: a dead 2x3 grid with arbitrary scratch
and history contents. -/
theorem dead_grid_stays_dead_witness :
    ((1 : Int) ≤ 2 ∧ (1 : Int) ≤ 3 ∧ (∀ c ∈ List.replicate 6 0, c = 0)) ∧
    ((∃ t, tick ⟨List.replicate 6 0, [9, 8, 7, 6, 5, 4], [1, 0, 1, 1, 0, 255], 17⟩ 2 3 = some t ∧
        (t.arr.length : Int) = 2 * 3 ∧ ∀ c ∈ t.arr, c = 0) ∧
      ∀ n : Nat, ∃ t,
        tick_n n ⟨List.replicate 6 0, [9, 8, 7, 6, 5, 4], [1, 0, 1, 1, 0, 255], 17⟩ 2 3 = some t ∧
        (t.arr.length : Int) = 2 * 3 ∧ ∀ c ∈ t.arr, c = 0) :=
  ⟨⟨by decide, by decide, by decide⟩,
    dead_grid_stays_dead 2 3 (by decide) (by decide)
      ⟨List.replicate 6 0, [9, 8, 7, 6, 5, 4], [1, 0, 1, 1, 0, 255], 17⟩
      (by decide) (by decide) (by decide) (by decide)⟩

/-! ## Grids given by a predicate -/

theorem grid_of_length (w h : Int) (p : Int → Int → Bool) :
    (grid_of w h p).length = (w * h).toNat := by
  simp [grid_of]

theorem grid_of_length_int {w h : Int} (hw : 0 ≤ w) (hh : 0 ≤ h) (p : Int → Int → Bool) :
    ((grid_of w h p).length : Int) = w * h := by
  rw [grid_of_length]
  exact Int.toNat_of_nonneg (mul_nonneg hw hh)

theorem idx_mod_div {w x y : Int} (hx0 : 0 ≤ x) (hxw : x < w) :
    (y * w + x) % w = x ∧ (y * w + x) / w = y := by
  constructor
  · rw [Int.add_comm, Int.add_mul_emod_self, Int.emod_eq_of_lt hx0 hxw]
  · rw [Int.add_comm, Int.add_mul_ediv_right _ _ (by omega : w ≠ 0),
      Int.ediv_eq_zero_of_lt hx0 hxw]
    simp

theorem cell_at_grid_of (w h : Int) (p : Int → Int → Bool) (x y : Int) :
    cell_at (grid_of w h p) w h x y = live w h p x y := by
  unfold cell_at live
  by_cases hg : 0 ≤ x ∧ x < w ∧ 0 ≤ y ∧ y < h
  · obtain ⟨hx0, hxw, hy0, hyh⟩ := hg
    have hb := idx_bound hx0 hxw hy0 hyh
    have hlt : (y * w + x).toNat < (w * h).toNat := by omega
    have hmd := idx_mod_div (y := y) hx0 hxw
    rw [if_pos ⟨hx0, hxw, hy0, hyh⟩, List.getD_eq_getElem?_getD]
    simp only [grid_of, List.getElem?_map, List.getElem?_range hlt, Option.map_some',
      Option.getD_some, Int.toNat_of_nonneg hb.1, hmd.1, hmd.2]
    by_cases hp : p x y = true
    · rw [if_pos hp, if_pos ⟨hx0, hxw, hy0, hyh, hp⟩]
    · rw [if_neg hp, if_neg (fun hc => hp hc.2.2.2.2)]
  · rw [if_neg hg, if_neg (fun hc => hg ⟨hc.1, hc.2.1, hc.2.2.1, hc.2.2.2.1⟩)]

theorem next_gen_grid_of {w h : Int} (hw : 0 ≤ w) (p q : Int → Int → Bool)
    (hpq : ∀ x y : Int, 0 ≤ x → x < w → 0 ≤ y → y < h →
      rule (live w h p x y)
        (live w h p (x - 1) (y - 1) + live w h p x (y - 1) + live w h p (x + 1) (y - 1)
          + live w h p (x - 1) y + live w h p (x + 1) y
          + live w h p (x - 1) (y + 1) + live w h p x (y + 1) + live w h p (x + 1) (y + 1))
        = if q x y = true then 1 else 0) :
    next_gen (grid_of w h p) w h = grid_of w h q := by
  unfold next_gen
  conv_rhs => unfold grid_of
  apply List.map_congr_left
  intro n hn
  rw [List.mem_range] at hn
  have hn2 : (n : Int) < w * h := by omega
  have hwpos : 0 < w := by
    rcases lt_or_ge 0 w with h1 | h1
    · exact h1
    · have : w = 0 := by omega
      subst this
      simp at hn2
      omega
  have hx0 : 0 ≤ (n : Int) % w := Int.emod_nonneg _ (by omega)
  have hxw : (n : Int) % w < w := Int.emod_lt_of_pos _ hwpos
  have hy0 : 0 ≤ (n : Int) / w := Int.ediv_nonneg (Int.ofNat_nonneg n) hw
  have hyh : (n : Int) / w < h := by
    rw [Int.ediv_lt_iff_lt_mul hwpos, mul_comm]
    exact hn2
  unfold around
  simp only [cell_at_grid_of]
  exact hpq _ _ hx0 hxw hy0 hyh

theorem blinker_turns_vertical {w h cx cy : Int} (h1 : 1 ≤ cx) (h2 : cx + 1 < w)
    (h3 : 1 ≤ cy) (h4 : cy + 1 < h) :
    next_gen (grid_of w h (horizontal_blinker cx cy)) w h
      = grid_of w h (vertical_blinker cx cy) := by
  apply next_gen_grid_of (by omega)
  intro x y hx0 hxw hy0 hyh
  have hl : ∀ kx ky : Int, live w h (horizontal_blinker cx cy) kx ky
      = if ky = cy ∧ cx - 1 ≤ kx ∧ kx ≤ cx + 1 then 1 else 0 := by
    intro kx ky
    unfold live horizontal_blinker
    simp only [decide_eq_true_eq]
    split_ifs <;> first | rfl | omega
  simp only [hl, vertical_blinker, decide_eq_true_eq]
  have hy : y ≤ cy - 2 ∨ y = cy - 1 ∨ y = cy ∨ y = cy + 1 ∨ cy + 2 ≤ y := by omega
  have hx : x ≤ cx - 3 ∨ x = cx - 2 ∨ x = cx - 1 ∨ x = cx ∨ x = cx + 1 ∨ x = cx + 2
      ∨ cx + 3 ≤ x := by omega
  rcases hy with e | e | e | e | e <;> rcases hx with f | f | f | f | f | f | f <;>
    simp (disch := omega) only [if_pos, if_neg] <;> rfl

theorem blinker_turns_horizontal {w h cx cy : Int} (h1 : 1 ≤ cx) (h2 : cx + 1 < w)
    (h3 : 1 ≤ cy) (h4 : cy + 1 < h) :
    next_gen (grid_of w h (vertical_blinker cx cy)) w h
      = grid_of w h (horizontal_blinker cx cy) := by
  apply next_gen_grid_of (by omega)
  intro x y hx0 hxw hy0 hyh
  have hl : ∀ kx ky : Int, live w h (vertical_blinker cx cy) kx ky
      = if kx = cx ∧ cy - 1 ≤ ky ∧ ky ≤ cy + 1 then 1 else 0 := by
    intro kx ky
    unfold live vertical_blinker
    simp only [decide_eq_true_eq]
    split_ifs <;> first | rfl | omega
  simp only [hl, horizontal_blinker, decide_eq_true_eq]
  have hx : x ≤ cx - 2 ∨ x = cx - 1 ∨ x = cx ∨ x = cx + 1 ∨ cx + 2 ≤ x := by omega
  have hy : y ≤ cy - 3 ∨ y = cy - 2 ∨ y = cy - 1 ∨ y = cy ∨ y = cy + 1 ∨ y = cy + 2
      ∨ cy + 3 ≤ y := by omega
  rcases hx with e | e | e | e | e <;> rcases hy with f | f | f | f | f | f | f <;>
    simp (disch := omega) only [if_pos, if_neg] <;> rfl

/-! ## The blinker -/

/-- C4: on a grid whose only live cells are the horizontal triple
`(cx-1, cy), (cx, cy), (cx+1, cy)`, with the triple and the cells above and
below its centre inside the grid (as for a centred blinker whenever
`w, h ≥ 5`), one tick gives the grid whose only live cells are the vertical
triple `(cx, cy-1), (cx, cy), (cx, cy+1)` and a second tick gives the original
active grid again. -/
theorem blinker_oscillates (w h cx cy : Int) (h1 : 1 ≤ cx) (h2 : cx + 1 < w)
    (h3 : 1 ≤ cy) (h4 : cy + 1 < h) (s : Sim)
    (ha : s.arr = grid_of w h (horizontal_blinker cx cy))
    (hb : (s.buf.length : Int) = w * h) (hhist : (s.hist.length : Int) = w * h) :
    ∃ t u, tick s w h = some t ∧ t.arr = grid_of w h (vertical_blinker cx cy) ∧
      tick t w h = some u ∧ u.arr = s.arr := by
  have hw : 0 ≤ w := by omega
  have hh : 0 ≤ h := by omega
  have hs : sized w h s := ⟨by rw [ha]; exact grid_of_length_int hw hh _, hb, hhist⟩
  obtain ⟨t, ht, hts, hta, -⟩ := tick_sized hw hh hs
  obtain ⟨u, hu, -, hua, -⟩ := tick_sized hw hh hts
  refine ⟨t, u, ht, ?_, hu, ?_⟩
  · rw [hta, ha, blinker_turns_vertical h1 h2 h3 h4]
  · rw [hua, hta, ha, blinker_turns_vertical h1 h2 h3 h4, blinker_turns_horizontal h1 h2 h3 h4]

/-- C4, witness: the 5x5 grid with the blinker in the
middle row. -/
theorem blinker_oscillates_witness :
    ((1 : Int) ≤ 2 ∧ (2 : Int) + 1 < 5 ∧ (1 : Int) ≤ 2 ∧ (2 : Int) + 1 < 5 ∧
      ([0, 0, 0, 0, 0, 0, 0, 0, 0, 0, 0, 1, 1, 1, 0, 0, 0, 0, 0, 0, 0, 0, 0, 0, 0] : Field)
        = grid_of 5 5 (horizontal_blinker 2 2)) ∧
    ∃ t u, tick ⟨[0, 0, 0, 0, 0, 0, 0, 0, 0, 0, 0, 1, 1, 1, 0, 0, 0, 0, 0, 0, 0, 0, 0, 0, 0],
        List.replicate 25 0, List.replicate 25 0, 0⟩ 5 5 = some t ∧
      t.arr = grid_of 5 5 (vertical_blinker 2 2) ∧ tick t 5 5 = some u ∧
      u.arr = [0, 0, 0, 0, 0, 0, 0, 0, 0, 0, 0, 1, 1, 1, 0, 0, 0, 0, 0, 0, 0, 0, 0, 0, 0] :=
  ⟨⟨by decide, by decide, by decide, by decide, by decide⟩,
    blinker_oscillates 5 5 2 2 (by decide) (by decide) (by decide) (by decide)
      ⟨[0, 0, 0, 0, 0, 0, 0, 0, 0, 0, 0, 1, 1, 1, 0, 0, 0, 0, 0, 0, 0, 0, 0, 0, 0],
        List.replicate 25 0, List.replicate 25 0, 0⟩ (by decide) (by decide) (by decide)⟩

theorem grid_of_get {w h x y : Int} (p : Int → Int → Bool)
    (hx0 : 0 ≤ x) (hxw : x < w) (hy0 : 0 ≤ y) (hyh : y < h) :
    (grid_of w h p)[(y * w + x).toNat]? = some (if p x y = true then 1 else 0) := by
  rw [cell_at_get (grid_of_length_int (by omega) (by omega) p) hx0 hxw hy0 hyh,
    cell_at_grid_of]
  unfold live
  by_cases hp : p x y = true
  · rw [if_pos hp, if_pos ⟨hx0, hxw, hy0, hyh, hp⟩]
  · rw [if_neg hp, if_neg (fun hc => hp hc.2.2.2.2)]

/-- C5, counterexample: on the 5x5 grid with the blinker in the middle row, a
dead history and the counter at 0, the counter after two ticks is `ULLONG_MAX`,
not 2. -/
theorem blinker_counter_after_two_ticks :
    ∃ t, tick_n 2
        ⟨[0, 0, 0, 0, 0, 0, 0, 0, 0, 0, 0, 1, 1, 1, 0, 0, 0, 0, 0, 0, 0, 0, 0, 0, 0],
          List.replicate 25 0, List.replicate 25 0, 0⟩ 5 5 = some t ∧
      t.tick_count = 2 ^ 64 - 1 ∧ t.tick_count ≠ 2 := by
  refine ⟨⟨[0, 0, 0, 0, 0, 0, 0, 0, 0, 0, 0, 1, 1, 1, 0, 0, 0, 0, 0, 0, 0, 0, 0, 0, 0],
      [0, 0, 0, 0, 0, 0, 0, 1, 0, 0, 0, 0, 1, 0, 0, 0, 0, 1, 0, 0, 0, 0, 0, 0, 0],
      [0, 0, 0, 0, 0, 0, 0, 0, 0, 0, 0, 1, 1, 1, 0, 0, 0, 0, 0, 0, 0, 0, 0, 0, 0],
      2 ^ 64 - 1⟩, ?_, rfl, ?_⟩
  · decide
  · decide

/-- C5, amended: starting from a grid that holds only a horizontal three-cell
blinker (with its vertical phase inside the grid, as for a centred blinker
whenever `w, h ≥ 5`), the counter at 0 and an all-dead history, the first tick
takes the counter to 1 and the second tick sets it to the sentinel
`ULLONG_MAX`: the stagnation detector fires on the period-2 blinker. -/
theorem blinker_flagged_at_second_tick (w h cx cy : Int) (h1 : 1 ≤ cx) (h2 : cx + 1 < w)
    (h3 : 1 ≤ cy) (h4 : cy + 1 < h) (s : Sim)
    (ha : s.arr = grid_of w h (horizontal_blinker cx cy))
    (hb : (s.buf.length : Int) = w * h)
    (hhist : s.hist = List.replicate (w * h).toNat 0) (hc : s.tick_count = 0) :
    ∃ t u, tick s w h = some t ∧ t.tick_count = 1 ∧
      tick t w h = some u ∧ u.tick_count = ULLONG_MAX := by
  have hw : 0 ≤ w := by omega
  have hh : 0 ≤ h := by omega
  have hlenH : ((grid_of w h (horizontal_blinker cx cy)).length : Int) = w * h :=
    grid_of_length_int hw hh _
  have hlenV : ((grid_of w h (vertical_blinker cx cy)).length : Int) = w * h :=
    grid_of_length_int hw hh _
  have hhl : (s.hist.length : Int) = w * h := by
    rw [hhist, List.length_replicate]
    exact Int.toNat_of_nonneg (mul_nonneg hw hh)
  have hne : ¬ s.hist = grid_of w h (vertical_blinker cx cy) := by
    intro e
    have hg := grid_of_get (w := w) (h := h) (vertical_blinker cx cy)
      (by omega : 0 ≤ cx) (by omega : cx < w) (by omega : 0 ≤ cy) (by omega : cy < h)
    have hv : vertical_blinker cx cy cx cy = true := by
      unfold vertical_blinker
      rw [decide_eq_true_iff]
      omega
    rw [← e, hhist, hv, if_pos rfl] at hg
    rw [List.getElem?_replicate] at hg
    split_ifs at hg
    cases hg
  have e1 := tick_eq hw hh (by rw [ha]; exact hlenH) hb hhl
  rw [ha, blinker_turns_vertical h1 h2 h3 h4, if_neg hne, hc] at e1
  have e2 := tick_eq (s := ⟨grid_of w h (vertical_blinker cx cy),
      grid_of w h (horizontal_blinker cx cy), grid_of w h (horizontal_blinker cx cy),
      (0 + 1) % 2 ^ 64⟩) hw hh hlenV hlenH hlenH
  simp only [blinker_turns_horizontal h1 h2 h3 h4, if_true] at e2
  exact ⟨_, _, e1, rfl, e2, rfl⟩

/-- C5, witness: the 5x5 grid with the blinker
in the middle row. -/
theorem blinker_flagged_at_second_tick_witness :
    ((1 : Int) ≤ 2 ∧ (2 : Int) + 1 < 5 ∧ (1 : Int) ≤ 2 ∧ (2 : Int) + 1 < 5 ∧
      ([0, 0, 0, 0, 0, 0, 0, 0, 0, 0, 0, 1, 1, 1, 0, 0, 0, 0, 0, 0, 0, 0, 0, 0, 0] : Field)
        = grid_of 5 5 (horizontal_blinker 2 2) ∧
      List.replicate 25 0 = List.replicate ((5 : Int) * 5).toNat 0) ∧
    ∃ t u, tick ⟨[0, 0, 0, 0, 0, 0, 0, 0, 0, 0, 0, 1, 1, 1, 0, 0, 0, 0, 0, 0, 0, 0, 0, 0, 0],
        List.replicate 25 3, List.replicate 25 0, 0⟩ 5 5 = some t ∧ t.tick_count = 1 ∧
      tick t 5 5 = some u ∧ u.tick_count = ULLONG_MAX :=
  ⟨⟨by decide, by decide, by decide, by decide, by decide, by decide⟩,
    blinker_flagged_at_second_tick 5 5 2 2 (by decide) (by decide) (by decide) (by decide)
      ⟨[0, 0, 0, 0, 0, 0, 0, 0, 0, 0, 0, 1, 1, 1, 0, 0, 0, 0, 0, 0, 0, 0, 0, 0, 0],
        List.replicate 25 3, List.replicate 25 0, 0⟩
      (by decide) (by decide) (by decide) rfl⟩

/-! ## A single live cell -/

theorem single_cell_dies {w h px py : Int} (hw : 0 ≤ w) :
    next_gen (grid_of w h (single_cell px py)) w h = grid_of w h (fun _ _ => false) := by
  apply next_gen_grid_of hw
  intro x y hx0 hxw hy0 hyh
  have hl : ∀ kx ky : Int, live w h (single_cell px py) kx ky ≤
      if kx = px ∧ ky = py then 1 else 0 := by
    intro kx ky
    unfold live single_cell
    simp only [decide_eq_true_eq]
    split_ifs <;> omega
  have hz : ∀ kx ky : Int, ¬ (kx = px ∧ ky = py) → live w h (single_cell px py) kx ky = 0 := by
    intro kx ky hk
    have := hl kx ky
    rw [if_neg hk] at this
    omega
  have huse : ∀ {c n : Nat}, n ≤ 1 → rule c n = 0 := by
    intro c n hn
    unfold rule
    split_ifs <;> omega
  show rule _ _ = 0
  apply huse
  have hx : px ≤ x - 2 ∨ px = x - 1 ∨ px = x ∨ px = x + 1 ∨ x + 2 ≤ px := by omega
  have hy : py ≤ y - 2 ∨ py = y - 1 ∨ py = y ∨ py = y + 1 ∨ y + 2 ≤ py := by omega
  rcases hx with e | e | e | e | e <;> rcases hy with f | f | f | f | f <;>
    simp (disch := omega) only [hz, zero_add, add_zero, zero_le] <;>
    exact le_trans (hl _ _) (by split_ifs <;> omega)

theorem grid_of_false_dead (w h : Int) : ∀ c ∈ grid_of w h (fun _ _ => false), c = 0 := by
  intro c hc
  unfold grid_of at hc
  rw [List.mem_map] at hc
  obtain ⟨n, -, rfl⟩ := hc
  rfl

/-- C6: for `w, h ≥ 1` and a grid whose only live cell is `(px, py)`, anywhere
in the grid, the active grid after one tick is all-dead, and it is all-dead
after every number `n ≥ 1` of ticks. -/
theorem single_cell_grid_dies (w h px py : Int) (hw : 1 ≤ w) (hh : 1 ≤ h)
    (hpx0 : 0 ≤ px) (hpxw : px < w) (hpy0 : 0 ≤ py) (hpyh : py < h) (s : Sim)
    (ha : s.arr = grid_of w h (single_cell px py))
    (hb : (s.buf.length : Int) = w * h) (hhist : (s.hist.length : Int) = w * h) :
    s.arr[(py * w + px).toNat]? = some 1 ∧
    (∃ t, tick s w h = some t ∧ (t.arr.length : Int) = w * h ∧ ∀ c ∈ t.arr, c = 0) ∧
    ∀ n : Nat, 1 ≤ n → ∃ t, tick_n n s w h = some t ∧ (t.arr.length : Int) = w * h ∧
      ∀ c ∈ t.arr, c = 0 := by
  have hw0 : 0 ≤ w := by omega
  have hh0 : 0 ≤ h := by omega
  have hs : sized w h s := ⟨by rw [ha]; exact grid_of_length_int hw0 hh0 _, hb, hhist⟩
  obtain ⟨t, ht, hts, hta, -⟩ := tick_sized hw0 hh0 hs
  have htd : ∀ c ∈ t.arr, c = 0 := by
    rw [hta, ha, single_cell_dies hw0]
    exact grid_of_false_dead w h
  have hlive : s.arr[(py * w + px).toNat]? = some 1 := by
    rw [ha, grid_of_get _ hpx0 hpxw hpy0 hpyh, if_pos]
    unfold single_cell
    rw [decide_eq_true_iff]
    exact ⟨rfl, rfl⟩
  refine ⟨hlive, ⟨t, ht, hts.1, htd⟩, ?_⟩
  intro n hn
  obtain ⟨m, rfl⟩ : ∃ m, n = m + 1 := ⟨n - 1, by omega⟩
  obtain ⟨u, hu, hus, hud⟩ := tick_n_dead hw0 hh0 m hts htd
  exact ⟨u, by simp [tick_n, ht, hu], hus.1, hud⟩

/-- C6, witness: the 3x2 grid whose only live cell is
the corner `(2, 1)`. -/
theorem single_cell_grid_dies_witness :
    ((1 : Int) ≤ 3 ∧ (1 : Int) ≤ 2 ∧ (0 : Int) ≤ 2 ∧ (2 : Int) < 3 ∧ (0 : Int) ≤ 1 ∧
      (1 : Int) < 2 ∧ ([0, 0, 0, 0, 0, 1] : Field) = grid_of 3 2 (single_cell 2 1)) ∧
    (([0, 0, 0, 0, 0, 1] : Field)[((1 : Int) * 3 + 2).toNat]? = some 1 ∧
      (∃ t, tick ⟨[0, 0, 0, 0, 0, 1], [5, 5, 5, 5, 5, 5], [1, 1, 1, 1, 1, 1], 3⟩ 3 2 = some t ∧
        (t.arr.length : Int) = 3 * 2 ∧ ∀ c ∈ t.arr, c = 0) ∧
      ∀ n : Nat, 1 ≤ n → ∃ t,
        tick_n n ⟨[0, 0, 0, 0, 0, 1], [5, 5, 5, 5, 5, 5], [1, 1, 1, 1, 1, 1], 3⟩ 3 2 = some t ∧
        (t.arr.length : Int) = 3 * 2 ∧ ∀ c ∈ t.arr, c = 0) :=
  ⟨⟨by decide, by decide, by decide, by decide, by decide, by decide, by decide⟩,
    single_cell_grid_dies 3 2 2 1 (by decide) (by decide) (by decide) (by decide) (by decide)
      (by decide) ⟨[0, 0, 0, 0, 0, 1], [5, 5, 5, 5, 5, 5], [1, 1, 1, 1, 1, 1], 3⟩
      (by decide) (by decide) (by decide)⟩

/-! ## The tick counter and the history buffer -/

theorem eq_iff_cells {a b : Field} {n : Int} (ha : (a.length : Int) = n)
    (hb : (b.length : Int) = n) :
    a = b ↔ ∀ i : Nat, (i : Int) < n → a[i]? = b[i]? := by
  constructor
  · intro e i _
    rw [e]
  · intro hc
    apply List.ext_getElem?
    intro i
    rcases Nat.lt_or_ge i a.length with hi | hi
    · exact hc i (by omega)
    · rw [List.getElem?_eq_none hi, List.getElem?_eq_none (by omega)]

theorem ne_iff_cells {a b : Field} {n : Int} (ha : (a.length : Int) = n)
    (hb : (b.length : Int) = n) :
    a ≠ b ↔ ∃ i : Nat, (i : Int) < n ∧ a[i]? ≠ b[i]? := by
  rw [ne_eq, eq_iff_cells ha hb]
  push_neg
  rfl

theorem succ_mod_of_lt {c : Nat} (hc : c < ULLONG_MAX) : (c + 1) % 2 ^ 64 = c + 1 := by
  unfold ULLONG_MAX at hc
  exact Nat.mod_eq_of_lt (by omega)

/-- C7, counterexample: on a 1x1 grid whose live cell dies while the history
says alive, with the counter at `2 ^ 64 - 2`, below the sentinel, the tick
detects a change and the increment leaves the counter at `ULLONG_MAX` although
the new generation does not reproduce the history. -/
theorem sentinel_value_reached_by_increment :
    ∃ t, 2 ^ 64 - 2 < ULLONG_MAX ∧ tick ⟨[1], [0], [1], 2 ^ 64 - 2⟩ 1 1 = some t ∧
      t.arr = [0] ∧
      ¬ (∀ i : Nat, (i : Int) < 1 * 1 → t.arr[i]? = ([1] : Field)[i]?) ∧
      t.tick_count = ULLONG_MAX := by
  refine ⟨⟨[0], [1], [1], ULLONG_MAX⟩, by decide, by decide, rfl, ?_, rfl⟩
  intro hall
  exact absurd (hall 0 (by decide)) (by decide)

/-- C7, amended: for a tick on buffers of length `w * h` with the counter below
the sentinel, `tick` returns; if some cell of the new generation differs from
the cell of the old history at the same index the counter becomes the old value
plus one; if the new generation equals the old history at every index the
counter becomes `ULLONG_MAX`; `change_flag` is left at 0, which is the branch
that assigns the sentinel, exactly when the new generation reproduces the old
history; and the counter equals `ULLONG_MAX` afterwards exactly when the new
generation reproduces the old history or the old counter is `2 ^ 64 - 2`, the
value whose increment is `ULLONG_MAX`. -/
theorem tick_counter_rule (w h : Int) (hw : 0 ≤ w) (hh : 0 ≤ h) (s : Sim)
    (ha : (s.arr.length : Int) = w * h) (hb : (s.buf.length : Int) = w * h)
    (hhist : (s.hist.length : Int) = w * h) (hc : s.tick_count < ULLONG_MAX) :
    ∃ r t, tick_loop s.arr s.buf s.hist w h = some r ∧ tick s w h = some t ∧ t.arr = r.1 ∧
      ((∃ i : Nat, (i : Int) < w * h ∧ t.arr[i]? ≠ s.hist[i]?) →
        t.tick_count = s.tick_count + 1) ∧
      ((∀ i : Nat, (i : Int) < w * h → t.arr[i]? = s.hist[i]?) →
        t.tick_count = ULLONG_MAX) ∧
      (r.2 = false ↔ ∀ i : Nat, (i : Int) < w * h → t.arr[i]? = s.hist[i]?) ∧
      (t.tick_count = ULLONG_MAX ↔
        (∀ i : Nat, (i : Int) < w * h → t.arr[i]? = s.hist[i]?) ∨
          s.tick_count = 2 ^ 64 - 2) := by
  have hlen : ((next_gen s.arr w h).length : Int) = w * h := by
    rw [next_gen_length]; omega
  have hsame := eq_iff_cells hlen hhist
  have hdiff := ne_iff_cells hlen hhist
  refine ⟨_, _, tick_loop_eq hw hh ha hb hhist, tick_eq hw hh ha hb hhist, ?_, ?_, ?_, ?_, ?_⟩
  · split_ifs <;> rfl
  · intro hex
    have hne : next_gen s.arr w h ≠ s.hist := by
      rw [hdiff]
      obtain ⟨i, hi, hx⟩ := hex
      refine ⟨i, hi, ?_⟩
      split_ifs at hx <;> exact hx
    rw [if_neg (fun e => hne e.symm)]
    exact succ_mod_of_lt hc
  · intro hall
    have he : next_gen s.arr w h = s.hist := by
      rw [hsame]
      intro i hi
      have := hall i hi
      split_ifs at this <;> exact this
    rw [if_pos he.symm]
  · by_cases he : s.hist = next_gen s.arr w h
    · rw [if_pos he]
      simp only [he, ne_eq, not_true_eq_false, decide_False, true_iff]
      intro i _
      trivial
    · rw [if_neg he]
      simp only [ne_eq, he, not_false_eq_true, decide_True, Bool.true_eq_false, false_iff]
      intro hall
      exact he ((hsame.mpr hall).symm)
  · by_cases he : s.hist = next_gen s.arr w h
    · rw [if_pos he]
      simp only [true_iff]
      left
      intro i _
      rw [he]
    · rw [if_neg he]
      simp only [succ_mod_of_lt hc]
      constructor
      · intro hv
        right
        unfold ULLONG_MAX at hv
        omega
      · intro hor
        rcases hor with hall | hv
        · exact absurd ((hsame.mpr hall).symm) he
        · unfold ULLONG_MAX
          omega

/-- C7, witness: a 3x3 grid with a live middle row, a dead
history and the counter at 41. -/
theorem tick_counter_rule_witness :
    ((0 : Int) ≤ 3 ∧ (0 : Int) ≤ 3 ∧ 41 < ULLONG_MAX) ∧
    ∃ r t, tick_loop [0, 0, 0, 1, 1, 1, 0, 0, 0] (List.replicate 9 0) (List.replicate 9 0) 3 3
        = some r ∧
      tick ⟨[0, 0, 0, 1, 1, 1, 0, 0, 0], List.replicate 9 0, List.replicate 9 0, 41⟩ 3 3
        = some t ∧ t.arr = r.1 ∧
      ((∃ i : Nat, (i : Int) < 3 * 3 ∧ t.arr[i]? ≠ (List.replicate 9 0)[i]?) →
        t.tick_count = 41 + 1) ∧
      ((∀ i : Nat, (i : Int) < 3 * 3 → t.arr[i]? = (List.replicate 9 0)[i]?) →
        t.tick_count = ULLONG_MAX) ∧
      (r.2 = false ↔ ∀ i : Nat, (i : Int) < 3 * 3 → t.arr[i]? = (List.replicate 9 0)[i]?) ∧
      (t.tick_count = ULLONG_MAX ↔
        (∀ i : Nat, (i : Int) < 3 * 3 → t.arr[i]? = (List.replicate 9 0)[i]?) ∨
          41 = 2 ^ 64 - 2) :=
  ⟨⟨by decide, by decide, by decide⟩,
    tick_counter_rule 3 3 (by decide) (by decide)
      ⟨[0, 0, 0, 1, 1, 1, 0, 0, 0], List.replicate 9 0, List.replicate 9 0, 41⟩
      (by decide) (by decide) (by decide) (by decide)⟩

/-- C8, counterexample: on the 5x5 grid with a horizontal blinker, a dead
history and the counter at 0, two ticks leave the counter at `ULLONG_MAX` and
the third tick takes it from there to 0. -/
theorem counter_leaves_sentinel_on_blinker :
    ∃ t u, tick_n 2
        ⟨[0, 0, 0, 0, 0, 0, 0, 0, 0, 0, 0, 1, 1, 1, 0, 0, 0, 0, 0, 0, 0, 0, 0, 0, 0],
          List.replicate 25 0, List.replicate 25 0, 0⟩ 5 5 = some t ∧
      t.tick_count = ULLONG_MAX ∧ tick t 5 5 = some u ∧ u.tick_count = 0 ∧
      u.tick_count < t.tick_count := by
  refine ⟨⟨[0, 0, 0, 0, 0, 0, 0, 0, 0, 0, 0, 1, 1, 1, 0, 0, 0, 0, 0, 0, 0, 0, 0, 0, 0],
      [0, 0, 0, 0, 0, 0, 0, 1, 0, 0, 0, 0, 1, 0, 0, 0, 0, 1, 0, 0, 0, 0, 0, 0, 0],
      [0, 0, 0, 0, 0, 0, 0, 0, 0, 0, 0, 1, 1, 1, 0, 0, 0, 0, 0, 0, 0, 0, 0, 0, 0],
      ULLONG_MAX⟩,
    ⟨[0, 0, 0, 0, 0, 0, 0, 1, 0, 0, 0, 0, 1, 0, 0, 0, 0, 1, 0, 0, 0, 0, 0, 0, 0],
      [0, 0, 0, 0, 0, 0, 0, 0, 0, 0, 0, 1, 1, 1, 0, 0, 0, 0, 0, 0, 0, 0, 0, 0, 0],
      [0, 0, 0, 0, 0, 0, 0, 0, 0, 0, 0, 1, 1, 1, 0, 0, 0, 0, 0, 0, 0, 0, 0, 0, 0],
      0⟩, ?_, rfl, ?_, rfl, ?_⟩
  · decide
  · decide
  · decide

/-- C8, amended: a tick on buffers of length `w * h` returns, and the counter
(a 64-bit value) afterwards is strictly greater than before whenever it was
below the sentinel; from the sentinel it stays at the sentinel when the new
generation reproduces the history, and the 64-bit increment takes it to 0 when
a change is detected. -/
theorem tick_counter_monotone_below_sentinel (w h : Int) (hw : 0 ≤ w) (hh : 0 ≤ h) (s : Sim)
    (ha : (s.arr.length : Int) = w * h) (hb : (s.buf.length : Int) = w * h)
    (hhist : (s.hist.length : Int) = w * h) :
    ∃ t, tick s w h = some t ∧ t.tick_count ≤ ULLONG_MAX ∧
      (s.tick_count < ULLONG_MAX → s.tick_count < t.tick_count) ∧
      (s.tick_count = ULLONG_MAX → t.arr = s.hist → t.tick_count = ULLONG_MAX) ∧
      (s.tick_count = ULLONG_MAX → t.arr ≠ s.hist → t.tick_count = 0) := by
  refine ⟨_, tick_eq hw hh ha hb hhist, ?_, ?_, ?_, ?_⟩
  · split_ifs
    · exact le_refl _
    · simp only
      have := Nat.mod_lt (s.tick_count + 1) (by decide : 2 ^ 64 > 0)
      unfold ULLONG_MAX
      omega
  · intro hlt
    split_ifs
    · exact hlt
    · simp only [succ_mod_of_lt hlt]
      omega
  · intro _ he
    split_ifs at he ⊢ with hx
    · rfl
    · exact absurd he.symm hx
  · intro hm hne
    split_ifs at hne ⊢ with hx
    · exact absurd hx.symm hne
    · simp only [hm, ULLONG_MAX]
      decide

/-- C8, witness: a 1x1 grid whose live
cell dies while the history says alive, with the counter at the sentinel. -/
theorem tick_counter_monotone_below_sentinel_witness :
    ((0 : Int) ≤ 1 ∧ (0 : Int) ≤ 1) ∧
    ∃ t, tick ⟨[1], [0], [1], ULLONG_MAX⟩ 1 1 = some t ∧ t.tick_count ≤ ULLONG_MAX ∧
      (ULLONG_MAX < ULLONG_MAX → ULLONG_MAX < t.tick_count) ∧
      (ULLONG_MAX = ULLONG_MAX → t.arr = [1] → t.tick_count = ULLONG_MAX) ∧
      (ULLONG_MAX = ULLONG_MAX → t.arr ≠ [1] → t.tick_count = 0) :=
  ⟨⟨by decide, by decide⟩,
    tick_counter_monotone_below_sentinel 1 1 (by decide) (by decide)
      ⟨[1], [0], [1], ULLONG_MAX⟩ (by decide) (by decide) (by decide)⟩

/-- C9, counterexample: on the 3x3 grid with a live middle row and a dead
history the tick detects a change, and afterwards the history is the old
generation (the new scratch buffer), not the new active buffer. -/
theorem history_is_not_new_generation :
    ∃ t, tick ⟨[0, 0, 0, 1, 1, 1, 0, 0, 0], List.replicate 9 0, List.replicate 9 0, 0⟩ 3 3
        = some t ∧
      t.arr = [0, 1, 0, 0, 1, 0, 0, 1, 0] ∧ t.arr ≠ List.replicate 9 0 ∧
      t.hist = [0, 0, 0, 1, 1, 1, 0, 0, 0] ∧ t.hist ≠ t.arr := by
  refine ⟨⟨[0, 1, 0, 0, 1, 0, 0, 1, 0], [0, 0, 0, 1, 1, 1, 0, 0, 0],
    [0, 0, 0, 1, 1, 1, 0, 0, 0], 1⟩, ?_, rfl, ?_, rfl, ?_⟩
  · decide
  · decide
  · decide

/-- C9, amended: a tick on buffers of length `w * h` returns; when some cell of
the new generation differs from the old history, the history afterwards equals
the active buffer as it was before the tick, which is the scratch buffer after
the tick; when no cell differs, the history is unchanged. -/
theorem history_holds_previous_generation (w h : Int) (hw : 0 ≤ w) (hh : 0 ≤ h) (s : Sim)
    (ha : (s.arr.length : Int) = w * h) (hb : (s.buf.length : Int) = w * h)
    (hhist : (s.hist.length : Int) = w * h) :
    ∃ t, tick s w h = some t ∧
      ((∃ i : Nat, (i : Int) < w * h ∧ t.arr[i]? ≠ s.hist[i]?) →
        t.hist = s.arr ∧ t.hist = t.buf) ∧
      ((∀ i : Nat, (i : Int) < w * h → t.arr[i]? = s.hist[i]?) → t.hist = s.hist) := by
  have hlen : ((next_gen s.arr w h).length : Int) = w * h := by
    rw [next_gen_length]; omega
  have hsame := eq_iff_cells hlen hhist
  have hdiff := ne_iff_cells hlen hhist
  refine ⟨_, tick_eq hw hh ha hb hhist, ?_, ?_⟩
  · intro hex
    have hne : next_gen s.arr w h ≠ s.hist := by
      rw [hdiff]
      obtain ⟨i, hi, hx⟩ := hex
      refine ⟨i, hi, ?_⟩
      split_ifs at hx <;> exact hx
    rw [if_neg (fun e => hne e.symm)]
    exact ⟨rfl, rfl⟩
  · intro _
    split_ifs with hx
    · rfl
    · exfalso
      apply hx
      symm
      rw [hsame]
      intro i hi
      have := ‹∀ i : Nat, (i : Int) < w * h → _› i hi
      rw [if_neg hx] at this
      exact this

/-- C9, witness: a 2x2 block with a dead
history. -/
theorem history_holds_previous_generation_witness :
    ((0 : Int) ≤ 2 ∧ (0 : Int) ≤ 2) ∧
    ∃ t, tick ⟨[1, 1, 1, 1], [0, 0, 0, 0], [0, 0, 0, 0], 0⟩ 2 2 = some t ∧
      ((∃ i : Nat, (i : Int) < 2 * 2 ∧ t.arr[i]? ≠ ([0, 0, 0, 0] : Field)[i]?) →
        t.hist = [1, 1, 1, 1] ∧ t.hist = t.buf) ∧
      ((∀ i : Nat, (i : Int) < 2 * 2 → t.arr[i]? = ([0, 0, 0, 0] : Field)[i]?) →
        t.hist = [0, 0, 0, 0]) :=
  ⟨⟨by decide, by decide⟩,
    history_holds_previous_generation 2 2 (by decide) (by decide)
      ⟨[1, 1, 1, 1], [0, 0, 0, 0], [0, 0, 0, 0], 0⟩ (by decide) (by decide) (by decide)⟩

/-! ## Loops that write a buffer cell by cell -/

theorem write_loop_eq (g : Field → Nat → Option Field) (f : Nat → Nat)
    (hg : ∀ a i, g a i = write_cell a (i : Int) (f i)) (arr : Field) (n : Nat)
    (hn : n ≤ arr.length) :
    (List.range n).foldlM g arr = some ((List.range n).map f ++ arr.drop n) := by
  induction n with
  | zero => rfl
  | succ n ih =>
    rw [List.range_succ, List.foldlM_append, ih (by omega)]
    simp only [Option.bind_eq_bind, Option.some_bind, List.foldlM_cons, List.foldlM_nil, hg]
    have hlen : ((List.range n).map f ++ arr.drop n).length = arr.length := by
      simp only [List.length_append, List.length_map, List.length_range, List.length_drop]
      omega
    have hm : ((List.range n).map f).length = n := by simp
    unfold write_cell
    rw [if_pos ⟨Int.ofNat_nonneg n, by rw [Int.toNat_ofNat, hlen]; omega⟩, Int.toNat_ofNat,
      List.set_append_right _ _ (by omega), hm, Nat.sub_self,
      List.drop_eq_getElem_cons (by omega : n < arr.length)]
    simp only [List.set_cons_zero, Option.some_bind, pure, List.map_append, List.map_cons,
      List.map_nil, List.append_assoc, List.singleton_append]

theorem write_loop_length (g : Field → Nat → Option Field) (f : Nat → Nat)
    (hg : ∀ a i, g a i = write_cell a (i : Int) (f i)) (arr : Field) (n : Int)
    (hn : (arr.length : Int) = n) :
    ∃ a, (List.range n.toNat).foldlM g arr = some a ∧ a = (List.range n.toNat).map f ∧
      (a.length : Int) = n := by
  have hn2 : n.toNat = arr.length := by omega
  refine ⟨_, write_loop_eq g f hg arr n.toNat (by omega), ?_, ?_⟩
  · rw [hn2, List.drop_of_length_le (le_refl _), List.append_nil]
  · simp only [List.length_append, List.length_map, List.length_range, List.length_drop]
    omega

theorem clear_field_eq {arr : Field} {n : Int} (hn : (arr.length : Int) = n) :
    ∃ a, clear_field arr n = some a ∧ a = (List.range n.toNat).map (fun _ => 0) ∧
      (a.length : Int) = n :=
  write_loop_length clear_step (fun _ => 0) (fun _ _ => rfl) arr n hn

theorem init_field_sized {w h : Int} (hw : 0 ≤ w) (hh : 0 ≤ h) {s : Sim} (hs : sized w h s)
    (probability ticks : Int) (rand : Nat → Nat) :
    ∃ t, init_field s w h probability ticks rand = some t ∧ sized w h t := by
  obtain ⟨a, ha, -, hal⟩ := write_loop_length (seed_step probability rand)
    (fun i => if ((rand i : Int) % 100) < probability then 1 else 0) (fun _ _ => rfl)
    s.arr (w * h) hs.1
  obtain ⟨t, ht, hts⟩ := tick_n_sized hw hh ticks.toNat
    (s := { s with arr := a }) ⟨hal, hs.2.1, hs.2.2⟩
  exact ⟨t, by simp [init_field, ha, ht], hts⟩

theorem realloc_field_eq (arr : Field) {n : Int} (hn : 0 < n) (junk : Nat → Nat) :
    ∃ a, realloc_field arr n junk = some a ∧ (a.length : Int) = n := by
  refine ⟨_, if_pos hn, ?_⟩
  simp only [List.length_map, List.length_range]
  omega

theorem neg_lt_tmod (a : Int) {b : Int} (hb : 0 < b) : -b < a.tmod b := by
  obtain ⟨n, rfl⟩ := Int.eq_ofNat_of_zero_le (le_of_lt hb)
  cases a with
  | ofNat m =>
    have : (0 : Int) ≤ Int.tmod (Int.ofNat m) n := Int.tmod_nonneg _ (Int.ofNat_nonneg m)
    omega
  | negSucc m =>
    show -(n : Int) < -Int.ofNat (Nat.succ m % n)
    have h1 : Nat.succ m % n < n := Nat.mod_lt _ (by omega)
    have h2 : Int.ofNat (Nat.succ m % n) = ((Nat.succ m % n : Nat) : Int) := rfl
    rw [h2]
    omega

theorem color_switch_total (clr_idx step : Int) (color_list : List Int) {length : Int}
    (hl : length = color_list.length) (hpos : 0 < length) :
    ∃ i, color_switch clr_idx step color_list length = some i ∧ 0 ≤ i ∧ i < length := by
  unfold color_switch
  have h1 : -length < (clr_idx + step).tmod length := neg_lt_tmod _ hpos
  have h2 : (clr_idx + step).tmod length < length := Int.tmod_lt_of_pos _ hpos
  rw [if_neg (by omega)]
  simp only
  split_ifs with h3 h4 h5
  · exact ⟨_, rfl, by omega, by omega⟩
  · exfalso; apply h4; omega
  · exact ⟨_, rfl, by omega, by omega⟩
  · exfalso; apply h5; omega

/-! ## The frame loop keeps the three buffers at `w * h` cells -/

theorem do_resize_sized (cfg : Config) (inp : FrameInput) (m : MainState)
    (hiw : 1 ≤ inp._w) (hih : 1 ≤ inp._h) :
    ∃ m1, do_resize cfg inp m = some m1 ∧ m1.w = inp._w ∧ m1.h = inp._h ∧
      m1.clr_idx = m.clr_idx ∧ m1.sim.tick_count = 0 ∧ sized inp._w inp._h m1.sim := by
  have hpos : 0 < inp._w * inp._h := mul_pos (by omega) (by omega)
  obtain ⟨a, ha, hal⟩ := realloc_field_eq m.sim.arr hpos inp.junk_arr
  obtain ⟨b, hb, hbl⟩ := realloc_field_eq m.sim.buf hpos inp.junk_buf
  obtain ⟨c, hc, hcl⟩ := realloc_field_eq m.sim.hist hpos inp.junk_hist
  obtain ⟨a2, ha2, -, ha2l⟩ := clear_field_eq hal
  obtain ⟨t, ht, hts⟩ := init_field_sized (w := inp._w) (h := inp._h) (by omega) (by omega)
    (s := { arr := a2, buf := b, hist := c, tick_count := m.sim.tick_count })
    ⟨ha2l, hbl, hcl⟩ cfg.init_prob cfg.init_ticks inp.rand
  exact ⟨{ w := inp._w, h := inp._h, sim := { t with tick_count := 0 }, clr_idx := m.clr_idx },
    by simp [do_resize, ha, hb, hc, ha2, ht], rfl, rfl, rfl, rfl, hts⟩

theorem do_reset_sized (cfg : Config) (inp : FrameInput) (m : MainState)
    (hmw : 0 ≤ m.w) (hmh : 0 ≤ m.h) (hm : sized m.w m.h m.sim)
    (hcl : cfg.color_list_length = cfg.color_list.length) (hne : 0 < cfg.color_list_length) :
    ∃ m1, do_reset cfg inp m = some m1 ∧ m1.w = m.w ∧ m1.h = m.h ∧
      m1.sim.tick_count = 0 ∧ sized m.w m.h m1.sim := by
  obtain ⟨a2, ha2, -, ha2l⟩ := clear_field_eq hm.1
  obtain ⟨t, ht, hts⟩ := init_field_sized hmw hmh
    (s := { m.sim with arr := a2 }) ⟨ha2l, hm.2.1, hm.2.2⟩ cfg.init_prob cfg.init_ticks inp.rand
  obtain ⟨i, hi, -, -⟩ := color_switch_total m.clr_idx 1 cfg.color_list hcl hne
  exact ⟨{ m with sim := { t with tick_count := 0 }, clr_idx := i },
    by simp [do_reset, ha2, ht, hi], rfl, rfl, rfl, hts⟩

theorem frame_action_sized (cfg : Config) (inp : FrameInput) (m : MainState)
    (hmw : 0 ≤ m.w) (hmh : 0 ≤ m.h) (hm : sized m.w m.h m.sim)
    (hiw : 1 ≤ inp._w) (hih : 1 ≤ inp._h)
    (hcl : cfg.color_list_length = cfg.color_list.length) (hne : 0 < cfg.color_list_length) :
    ∃ r, frame_action cfg inp m = some r ∧
      ∀ m1, r = some m1 → m1.w = inp._w ∧ m1.h = inp._h ∧ sized m1.w m1.h m1.sim := by
  unfold frame_action
  have hkeep : dispatch cfg inp m ≠ Action.resize → m.w = inp._w ∧ m.h = inp._h := by
    intro hd
    unfold dispatch at hd
    by_cases hc : m.w ≠ inp._w ∨ m.h ≠ inp._h
    · rw [if_pos hc] at hd
      exact absurd rfl hd
    · push_neg at hc
      exact hc
  cases hd : dispatch cfg inp m with
  | resize =>
    obtain ⟨m1, h1, h2, h3, -, -, h4⟩ := do_resize_sized cfg inp m hiw hih
    refine ⟨some m1, by simp [h1], ?_⟩
    intro m2 e
    cases e
    exact ⟨h2, h3, by rw [h2, h3]; exact h4⟩
  | reset =>
    obtain ⟨hw, hh⟩ := hkeep (by rw [hd]; decide)
    obtain ⟨m1, h1, h2, h3, -, h4⟩ := do_reset_sized cfg inp m hmw hmh hm hcl hne
    refine ⟨some m1, by simp [h1], ?_⟩
    intro m2 e
    cases e
    exact ⟨by rw [h2, hw], by rw [h3, hh], by rw [h2, h3]; exact h4⟩
  | quit =>
    exact ⟨none, rfl, by intro m1 e; cases e⟩
  | color_forward =>
    obtain ⟨hw, hh⟩ := hkeep (by rw [hd]; decide)
    obtain ⟨i, hi, -, -⟩ := color_switch_total m.clr_idx 1 cfg.color_list hcl hne
    refine ⟨some { m with clr_idx := i }, by simp [hi], ?_⟩
    intro m2 e
    cases e
    exact ⟨hw, hh, hm⟩
  | color_backward =>
    obtain ⟨hw, hh⟩ := hkeep (by rw [hd]; decide)
    obtain ⟨i, hi, -, -⟩ := color_switch_total m.clr_idx (-1) cfg.color_list hcl hne
    refine ⟨some { m with clr_idx := i }, by simp [hi], ?_⟩
    intro m2 e
    cases e
    exact ⟨hw, hh, hm⟩
  | nothing =>
    obtain ⟨hw, hh⟩ := hkeep (by rw [hd]; decide)
    refine ⟨some m, rfl, ?_⟩
    intro m2 e
    cases e
    exact ⟨hw, hh, hm⟩

theorem frame_sized (cfg : Config) (inp : FrameInput) (m : MainState)
    (hmw : 0 ≤ m.w) (hmh : 0 ≤ m.h) (hm : sized m.w m.h m.sim)
    (hiw : 1 ≤ inp._w) (hih : 1 ≤ inp._h)
    (hcl : cfg.color_list_length = cfg.color_list.length) (hne : 0 < cfg.color_list_length) :
    ∃ r, frame cfg inp m = some r ∧
      ∀ m1, r = some m1 → m1.w = inp._w ∧ m1.h = inp._h ∧ sized m1.w m1.h m1.sim := by
  obtain ⟨r, hr, hprop⟩ := frame_action_sized cfg inp m hmw hmh hm hiw hih hcl hne
  cases r with
  | none => exact ⟨none, by simp [frame, hr], by intro m1 e; cases e⟩
  | some m1 =>
    obtain ⟨h1, h2, h3⟩ := hprop m1 rfl
    obtain ⟨t, ht, hts, -, -⟩ := tick_sized (by omega) (by omega) h3
    refine ⟨some { m1 with sim := t }, by simp [frame, hr, ht], ?_⟩
    intro m2 e
    cases e
    exact ⟨h1, h2, hts⟩

/-- C10: the three buffers have one cell each when the frame loop is entered;
a resize to `(_w, _h)` with `_w, _h ≥ 1` returns with the active, scratch and
history buffers all of length `_w * _h`; and from a state whose three buffers
have `w * h` cells, `clear_field`, `init_field` (seeding and warm-up ticks),
`tick`, the reset branch and a whole frame (whatever branch it takes, colour
changes included) return with all three buffers at `w * h` cells for the
dimensions then current. -/
theorem buffers_keep_dimensions (cfg : Config) (inp : FrameInput) (m : MainState)
    (hmw : 0 ≤ m.w) (hmh : 0 ≤ m.h) (hm : sized m.w m.h m.sim)
    (hiw : 1 ≤ inp._w) (hih : 1 ≤ inp._h)
    (hcl : cfg.color_list_length = cfg.color_list.length) (hne : 0 < cfg.color_list_length) :
    sized main_start.w main_start.h main_start.sim ∧
    (∃ m1, do_resize cfg inp m = some m1 ∧ m1.w = inp._w ∧ m1.h = inp._h ∧
      sized inp._w inp._h m1.sim) ∧
    (∃ a, clear_field m.sim.arr (m.w * m.h) = some a ∧ (a.length : Int) = m.w * m.h) ∧
    (∃ t, init_field m.sim m.w m.h cfg.init_prob cfg.init_ticks inp.rand = some t ∧
      sized m.w m.h t) ∧
    (∃ t, tick m.sim m.w m.h = some t ∧ sized m.w m.h t) ∧
    (∃ m1, do_reset cfg inp m = some m1 ∧ m1.w = m.w ∧ m1.h = m.h ∧ sized m.w m.h m1.sim) ∧
    (∃ r, frame cfg inp m = some r ∧
      ∀ m1, r = some m1 → m1.w = inp._w ∧ m1.h = inp._h ∧ sized m1.w m1.h m1.sim) := by
  refine ⟨⟨rfl, rfl, rfl⟩, ?_, ?_, ?_, ?_, ?_, ?_⟩
  · obtain ⟨m1, h1, h2, h3, -, -, h4⟩ := do_resize_sized cfg inp m hiw hih
    exact ⟨m1, h1, h2, h3, h4⟩
  · obtain ⟨a, ha, -, hal⟩ := clear_field_eq hm.1
    exact ⟨a, ha, hal⟩
  · exact init_field_sized hmw hmh hm _ _ _
  · obtain ⟨t, ht, hts, -, -⟩ := tick_sized hmw hmh hm
    exact ⟨t, ht, hts⟩
  · obtain ⟨m1, h1, h2, h3, -, h4⟩ := do_reset_sized cfg inp m hmw hmh hm hcl hne
    exact ⟨m1, h1, h2, h3, h4⟩
  · exact frame_sized cfg inp m hmw hmh hm hiw hih hcl hne

/-- C10, witness: the first frame of a run with the
default parameters on a terminal of 3 columns and 2 rows. -/
theorem buffers_keep_dimensions_witness :
    ((0 : Int) ≤ main_start.w ∧ (0 : Int) ≤ main_start.h ∧
      sized main_start.w main_start.h main_start.sim ∧
      (1 : Int) ≤ sample_input._w ∧ (1 : Int) ≤ sample_input._h ∧
      default_config.color_list_length = default_config.color_list.length ∧
      0 < default_config.color_list_length) ∧
    (sized main_start.w main_start.h main_start.sim ∧
    (∃ m1, do_resize default_config sample_input main_start = some m1 ∧
      m1.w = sample_input._w ∧ m1.h = sample_input._h ∧
      sized sample_input._w sample_input._h m1.sim) ∧
    (∃ a, clear_field main_start.sim.arr (main_start.w * main_start.h) = some a ∧
      (a.length : Int) = main_start.w * main_start.h) ∧
    (∃ t, init_field main_start.sim main_start.w main_start.h default_config.init_prob
        default_config.init_ticks sample_input.rand = some t ∧
      sized main_start.w main_start.h t) ∧
    (∃ t, tick main_start.sim main_start.w main_start.h = some t ∧
      sized main_start.w main_start.h t) ∧
    (∃ m1, do_reset default_config sample_input main_start = some m1 ∧
      m1.w = main_start.w ∧ m1.h = main_start.h ∧
      sized main_start.w main_start.h m1.sim) ∧
    (∃ r, frame default_config sample_input main_start = some r ∧
      ∀ m1, r = some m1 → m1.w = sample_input._w ∧ m1.h = sample_input._h ∧
        sized m1.w m1.h m1.sim)) :=
  ⟨⟨by decide, by decide, ⟨rfl, rfl, rfl⟩, by decide, by decide, by decide, by decide⟩,
    buffers_keep_dimensions default_config sample_input main_start (by decide) (by decide)
      ⟨rfl, rfl, rfl⟩ (by decide) (by decide) (by decide) (by decide)⟩

/-! ## The if-chain of the frame loop -/

theorem limit_compare {max_ticks : Int} (hmax : max_ticks ≤ 2147483647) (tc : Nat) :
    (tc > (max_ticks % 2 ^ 64).toNat ∧ max_ticks > 0) ↔ ((tc : Int) > max_ticks ∧ max_ticks > 0) := by
  constructor
  · rintro ⟨h1, h2⟩
    rw [Int.emod_eq_of_lt (by omega) (by omega)] at h1
    exact ⟨by omega, h2⟩
  · rintro ⟨h1, h2⟩
    rw [Int.emod_eq_of_lt (by omega) (by omega)]
    exact ⟨by omega, h2⟩

theorem dispatch_eq {cfg : Config} (hmax : cfg.max_ticks ≤ 2147483647) (inp : FrameInput)
    (m : MainState) :
    dispatch cfg inp m =
      if m.w ≠ inp._w ∨ m.h ≠ inp._h then Action.resize
      else if inp.c = 99 ∨ ((m.sim.tick_count : Int) > cfg.max_ticks ∧ cfg.max_ticks > 0) then
        Action.reset
      else if inp.c = 113 ∨ inp.c = 10 ∨ inp.c = 27 then Action.quit
      else if inp.c = 102 then Action.color_forward
      else if inp.c = 70 then Action.color_backward
      else Action.nothing := by
  unfold dispatch
  simp only [limit_compare hmax m.sim.tick_count]

theorem frame_action_ne_break_of_map {α : Type} (o : Option α) :
    o.map (some : α → Option α) ≠ some none := by
  cases o <;> simp

/-- C11: the if-chain of the frame loop takes exactly the branch given by
strict priority, for every key, surface size, counter and `int` tick limit:
resize iff the surface size differs from `(w, h)`; otherwise reset iff the key
is `c` or (counter > limit and limit > 0); otherwise quit iff the key is `q`,
newline or escape; otherwise colour forward iff `f`; otherwise colour backward
iff `F`; otherwise nothing.  The effect of the chain is the effect of that
branch alone, so a frame in which a resize or an automatic reset is due does
not leave the loop whatever the key is, and a resize frame leaves the colour
index as it was even when the key is `c`. -/
theorem dispatch_priority (cfg : Config) (inp : FrameInput) (m : MainState)
    (hmax : cfg.max_ticks ≤ 2147483647) :
    (dispatch cfg inp m = Action.resize ↔ (m.w ≠ inp._w ∨ m.h ≠ inp._h)) ∧
    (dispatch cfg inp m = Action.reset ↔
      ¬ (m.w ≠ inp._w ∨ m.h ≠ inp._h) ∧
      (inp.c = 99 ∨ ((m.sim.tick_count : Int) > cfg.max_ticks ∧ cfg.max_ticks > 0))) ∧
    (dispatch cfg inp m = Action.quit ↔
      ¬ (m.w ≠ inp._w ∨ m.h ≠ inp._h) ∧
      ¬ (inp.c = 99 ∨ ((m.sim.tick_count : Int) > cfg.max_ticks ∧ cfg.max_ticks > 0)) ∧
      (inp.c = 113 ∨ inp.c = 10 ∨ inp.c = 27)) ∧
    (dispatch cfg inp m = Action.color_forward ↔
      ¬ (m.w ≠ inp._w ∨ m.h ≠ inp._h) ∧
      ¬ (inp.c = 99 ∨ ((m.sim.tick_count : Int) > cfg.max_ticks ∧ cfg.max_ticks > 0)) ∧
      ¬ (inp.c = 113 ∨ inp.c = 10 ∨ inp.c = 27) ∧ inp.c = 102) ∧
    (dispatch cfg inp m = Action.color_backward ↔
      ¬ (m.w ≠ inp._w ∨ m.h ≠ inp._h) ∧
      ¬ (inp.c = 99 ∨ ((m.sim.tick_count : Int) > cfg.max_ticks ∧ cfg.max_ticks > 0)) ∧
      ¬ (inp.c = 113 ∨ inp.c = 10 ∨ inp.c = 27) ∧ inp.c ≠ 102 ∧ inp.c = 70) ∧
    (dispatch cfg inp m = Action.nothing ↔
      ¬ (m.w ≠ inp._w ∨ m.h ≠ inp._h) ∧
      ¬ (inp.c = 99 ∨ ((m.sim.tick_count : Int) > cfg.max_ticks ∧ cfg.max_ticks > 0)) ∧
      ¬ (inp.c = 113 ∨ inp.c = 10 ∨ inp.c = 27) ∧ inp.c ≠ 102 ∧ inp.c ≠ 70) ∧
    (frame_action cfg inp m =
      if m.w ≠ inp._w ∨ m.h ≠ inp._h then (do_resize cfg inp m).map some
      else if inp.c = 99 ∨ ((m.sim.tick_count : Int) > cfg.max_ticks ∧ cfg.max_ticks > 0) then
        (do_reset cfg inp m).map some
      else if inp.c = 113 ∨ inp.c = 10 ∨ inp.c = 27 then some none
      else if inp.c = 102 then
        (color_switch m.clr_idx 1 cfg.color_list cfg.color_list_length).map
          (fun i => some { m with clr_idx := i })
      else if inp.c = 70 then
        (color_switch m.clr_idx (-1) cfg.color_list cfg.color_list_length).map
          (fun i => some { m with clr_idx := i })
      else some (some m)) ∧
    ((m.w ≠ inp._w ∨ m.h ≠ inp._h) → frame_action cfg inp m ≠ some none) ∧
    (((m.sim.tick_count : Int) > cfg.max_ticks ∧ cfg.max_ticks > 0) →
      frame_action cfg inp m ≠ some none) ∧
    ((m.w ≠ inp._w ∨ m.h ≠ inp._h) → ∀ m1, frame_action cfg inp m = some (some m1) →
      m1.clr_idx = m.clr_idx) := by
  have hd := dispatch_eq hmax inp m
  have hfa : frame_action cfg inp m =
      if m.w ≠ inp._w ∨ m.h ≠ inp._h then (do_resize cfg inp m).map some
      else if inp.c = 99 ∨ ((m.sim.tick_count : Int) > cfg.max_ticks ∧ cfg.max_ticks > 0) then
        (do_reset cfg inp m).map some
      else if inp.c = 113 ∨ inp.c = 10 ∨ inp.c = 27 then some none
      else if inp.c = 102 then
        (color_switch m.clr_idx 1 cfg.color_list cfg.color_list_length).map
          (fun i => some { m with clr_idx := i })
      else if inp.c = 70 then
        (color_switch m.clr_idx (-1) cfg.color_list cfg.color_list_length).map
          (fun i => some { m with clr_idx := i })
      else some (some m) := by
    unfold frame_action
    rw [hd]
    split_ifs <;> rfl
  refine ⟨?_, ?_, ?_, ?_, ?_, ?_, hfa, ?_, ?_, ?_⟩
  · rw [hd]; split_ifs <;> simp_all
  · rw [hd]; split_ifs <;> simp_all
  · rw [hd]; split_ifs <;> simp_all
  · rw [hd]; split_ifs <;> simp_all
  · rw [hd]; split_ifs <;> simp_all
  · rw [hd]; split_ifs <;> simp_all
  · intro hr
    rw [hfa, if_pos hr]
    exact frame_action_ne_break_of_map _
  · intro ha
    rw [hfa]
    by_cases hr : m.w ≠ inp._w ∨ m.h ≠ inp._h
    · rw [if_pos hr]
      exact frame_action_ne_break_of_map _
    · rw [if_neg hr, if_pos (Or.inr ha)]
      exact frame_action_ne_break_of_map _
  · intro hr m1 h1
    rw [hfa, if_pos hr] at h1
    unfold do_resize at h1
    simp only [Option.bind_eq_bind, Option.map_eq_some', Option.bind_eq_some, pure] at h1
    obtain ⟨m2, ⟨a, -, b, -, c, -, a2, -, t, -, e⟩, e2⟩ := h1
    cases e2
    cases e
    rfl

/-- C11, witness: the first frame of a run on a 3 by 2 terminal with `q` pressed:
the resize branch is taken and the loop is not left. -/
theorem dispatch_priority_witness :
    ((default_config.max_ticks ≤ 2147483647)) ∧
    ((dispatch default_config quit_input main_start = Action.resize ↔ (main_start.w ≠ quit_input._w ∨ main_start.h ≠ quit_input._h)) ∧
      (dispatch default_config quit_input main_start = Action.reset ↔
        ¬ (main_start.w ≠ quit_input._w ∨ main_start.h ≠ quit_input._h) ∧
        (quit_input.c = 99 ∨ ((main_start.sim.tick_count : Int) > default_config.max_ticks ∧ default_config.max_ticks > 0))) ∧
      (dispatch default_config quit_input main_start = Action.quit ↔
        ¬ (main_start.w ≠ quit_input._w ∨ main_start.h ≠ quit_input._h) ∧
        ¬ (quit_input.c = 99 ∨ ((main_start.sim.tick_count : Int) > default_config.max_ticks ∧ default_config.max_ticks > 0)) ∧
        (quit_input.c = 113 ∨ quit_input.c = 10 ∨ quit_input.c = 27)) ∧
      (dispatch default_config quit_input main_start = Action.color_forward ↔
        ¬ (main_start.w ≠ quit_input._w ∨ main_start.h ≠ quit_input._h) ∧
        ¬ (quit_input.c = 99 ∨ ((main_start.sim.tick_count : Int) > default_config.max_ticks ∧ default_config.max_ticks > 0)) ∧
        ¬ (quit_input.c = 113 ∨ quit_input.c = 10 ∨ quit_input.c = 27) ∧ quit_input.c = 102) ∧
      (dispatch default_config quit_input main_start = Action.color_backward ↔
        ¬ (main_start.w ≠ quit_input._w ∨ main_start.h ≠ quit_input._h) ∧
        ¬ (quit_input.c = 99 ∨ ((main_start.sim.tick_count : Int) > default_config.max_ticks ∧ default_config.max_ticks > 0)) ∧
        ¬ (quit_input.c = 113 ∨ quit_input.c = 10 ∨ quit_input.c = 27) ∧ quit_input.c ≠ 102 ∧ quit_input.c = 70) ∧
      (dispatch default_config quit_input main_start = Action.nothing ↔
        ¬ (main_start.w ≠ quit_input._w ∨ main_start.h ≠ quit_input._h) ∧
        ¬ (quit_input.c = 99 ∨ ((main_start.sim.tick_count : Int) > default_config.max_ticks ∧ default_config.max_ticks > 0)) ∧
        ¬ (quit_input.c = 113 ∨ quit_input.c = 10 ∨ quit_input.c = 27) ∧ quit_input.c ≠ 102 ∧ quit_input.c ≠ 70) ∧
      (frame_action default_config quit_input main_start =
        if main_start.w ≠ quit_input._w ∨ main_start.h ≠ quit_input._h then (do_resize default_config quit_input main_start).map some
        else if quit_input.c = 99 ∨ ((main_start.sim.tick_count : Int) > default_config.max_ticks ∧ default_config.max_ticks > 0) then
          (do_reset default_config quit_input main_start).map some
        else if quit_input.c = 113 ∨ quit_input.c = 10 ∨ quit_input.c = 27 then some none
        else if quit_input.c = 102 then
          (color_switch main_start.clr_idx 1 default_config.color_list default_config.color_list_length).map
            (fun i => some { main_start with clr_idx := i })
        else if quit_input.c = 70 then
          (color_switch main_start.clr_idx (-1) default_config.color_list default_config.color_list_length).map
            (fun i => some { main_start with clr_idx := i })
        else some (some main_start)) ∧
      ((main_start.w ≠ quit_input._w ∨ main_start.h ≠ quit_input._h) → frame_action default_config quit_input main_start ≠ some none) ∧
      (((main_start.sim.tick_count : Int) > default_config.max_ticks ∧ default_config.max_ticks > 0) →
        frame_action default_config quit_input main_start ≠ some none) ∧
      ((main_start.w ≠ quit_input._w ∨ main_start.h ≠ quit_input._h) → ∀ m1, frame_action default_config quit_input main_start = some (some m1) →
        m1.clr_idx = main_start.clr_idx)) :=
  ⟨by decide,
    dispatch_priority default_config quit_input main_start (by decide)⟩

/-- C12: in a frame without resize and without the key `c`, the reset branch
is taken iff counter > limit and limit > 0, the counter being a 64-bit
unsigned value and the limit an `int`; the chain then has the effect of the
reset branch.  With a limit that is 0 or negative no counter value takes the
reset branch, and with a positive limit a counter equal to `ULLONG_MAX` always
does. -/
theorem auto_reset_condition (cfg : Config) (inp : FrameInput) (m : MainState)
    (hmax : cfg.max_ticks ≤ 2147483647) (hw : m.w = inp._w) (hh : m.h = inp._h)
    (hc : inp.c ≠ 99) :
    (dispatch cfg inp m = Action.reset ↔
      ((m.sim.tick_count : Int) > cfg.max_ticks ∧ cfg.max_ticks > 0)) ∧
    (dispatch cfg inp m = Action.reset →
      frame_action cfg inp m = (do_reset cfg inp m).map some) ∧
    (cfg.max_ticks ≤ 0 → dispatch cfg inp m ≠ Action.reset) ∧
    (0 < cfg.max_ticks → m.sim.tick_count = ULLONG_MAX →
      dispatch cfg inp m = Action.reset) := by
  have hd := dispatch_eq hmax inp m
  have hsame : ¬ (m.w ≠ inp._w ∨ m.h ≠ inp._h) := by
    rw [hw, hh]
    simp
  rw [if_neg hsame] at hd
  have hiff : dispatch cfg inp m = Action.reset ↔
      ((m.sim.tick_count : Int) > cfg.max_ticks ∧ cfg.max_ticks > 0) := by
    rw [hd]
    split_ifs <;> simp_all
  refine ⟨hiff, ?_, ?_, ?_⟩
  · intro h
    unfold frame_action
    rw [h]
  · intro hle h
    have := hiff.mp h
    omega
  · intro hpos htc
    apply hiff.mpr
    rw [htc]
    unfold ULLONG_MAX
    constructor
    · have : ((2 ^ 64 - 1 : Nat) : Int) = 18446744073709551615 := by decide
      rw [this]
      omega
    · exact hpos

/-- C12, witness: the default limit of 240 on a 3 by 2 terminal whose counter
is at the sentinel, no key pressed. -/
theorem auto_reset_condition_witness :
    (default_config.max_ticks ≤ 2147483647 ∧ stagnant_state.w = sample_input._w ∧
      stagnant_state.h = sample_input._h ∧ sample_input.c ≠ 99) ∧
    ((dispatch default_config sample_input stagnant_state = Action.reset ↔
      ((stagnant_state.sim.tick_count : Int) > default_config.max_ticks ∧
        default_config.max_ticks > 0)) ∧
    (dispatch default_config sample_input stagnant_state = Action.reset →
      frame_action default_config sample_input stagnant_state =
        (do_reset default_config sample_input stagnant_state).map some) ∧
    (default_config.max_ticks ≤ 0 →
      dispatch default_config sample_input stagnant_state ≠ Action.reset) ∧
    (0 < default_config.max_ticks → stagnant_state.sim.tick_count = ULLONG_MAX →
      dispatch default_config sample_input stagnant_state = Action.reset)) :=
  ⟨⟨by decide, by decide, by decide, by decide⟩,
    auto_reset_condition default_config sample_input stagnant_state
      (by decide) (by decide) (by decide) (by decide)⟩

/-! ## The counter after a reset -/

/-- C13: a resize to a size of at least 1 by 1 and a manual or automatic reset
both return, and at the end of the branch the tick counter is 0: the result is
the state left by `init_field` (seeding and any number of warm-up ticks) with
the counter overwritten by 0, whatever value the warm-up left there. -/
theorem reset_zeroes_counter (cfg : Config) (inp : FrameInput) (m : MainState)
    (hmw : 0 ≤ m.w) (hmh : 0 ≤ m.h) (hm : sized m.w m.h m.sim)
    (hiw : 1 ≤ inp._w) (hih : 1 ≤ inp._h)
    (hcl : cfg.color_list_length = cfg.color_list.length) (hne : 0 < cfg.color_list_length) :
    (∃ m1, do_resize cfg inp m = some m1 ∧ m1.sim.tick_count = 0) ∧
    (∃ m1, do_reset cfg inp m = some m1 ∧ m1.sim.tick_count = 0) ∧
    (∀ m1, do_resize cfg inp m = some m1 →
      ∃ a b c a2 t, realloc_field m.sim.arr (inp._w * inp._h) inp.junk_arr = some a ∧
        realloc_field m.sim.buf (inp._w * inp._h) inp.junk_buf = some b ∧
        realloc_field m.sim.hist (inp._w * inp._h) inp.junk_hist = some c ∧
        clear_field a (inp._w * inp._h) = some a2 ∧
        init_field { arr := a2, buf := b, hist := c, tick_count := m.sim.tick_count }
          inp._w inp._h cfg.init_prob cfg.init_ticks inp.rand = some t ∧
        m1.sim = { t with tick_count := 0 }) ∧
    (∀ m1, do_reset cfg inp m = some m1 →
      ∃ a2 t, clear_field m.sim.arr (m.w * m.h) = some a2 ∧
        init_field { m.sim with arr := a2 } m.w m.h cfg.init_prob cfg.init_ticks inp.rand
          = some t ∧
        m1.sim = { t with tick_count := 0 }) ∧
    (dispatch cfg inp m = Action.resize ∨ dispatch cfg inp m = Action.reset →
      ∃ m1, frame_action cfg inp m = some (some m1) ∧ m1.sim.tick_count = 0) := by
  obtain ⟨r1, hr1, -, -, -, hr1c, -⟩ := do_resize_sized cfg inp m hiw hih
  obtain ⟨r2, hr2, -, -, hr2c, -⟩ := do_reset_sized cfg inp m hmw hmh hm hcl hne
  refine ⟨⟨r1, hr1, hr1c⟩, ⟨r2, hr2, hr2c⟩, ?_, ?_, ?_⟩
  · intro m1 h1
    unfold do_resize at h1
    simp only [Option.bind_eq_bind, Option.bind_eq_some, pure] at h1
    obtain ⟨a, ha, b, hb, c, hc, a2, ha2, t, ht, e⟩ := h1
    cases e
    exact ⟨a, b, c, a2, t, ha, hb, hc, ha2, ht, rfl⟩
  · intro m1 h1
    unfold do_reset at h1
    simp only [Option.bind_eq_bind, Option.bind_eq_some, pure] at h1
    obtain ⟨a2, ha2, t, ht, i, -, e⟩ := h1
    cases e
    exact ⟨a2, t, ha2, ht, rfl⟩
  · intro hd
    unfold frame_action
    rcases hd with hd | hd
    · rw [hd]
      exact ⟨r1, by simp [hr1], hr1c⟩
    · rw [hd]
      exact ⟨r2, by simp [hr2], hr2c⟩

/-- C13, witness: the first frame of a run on a 3 by 2 terminal with seeding
probability 0, where the five warm-up ticks leave the counter at the sentinel. -/
theorem reset_zeroes_counter_witness :
    ((0 ≤ main_start.w) ∧
      (0 ≤ main_start.h) ∧
      (sized main_start.w main_start.h main_start.sim) ∧
      (1 ≤ sample_input._w) ∧
      (1 ≤ sample_input._h) ∧
      (dead_seed_config.color_list_length = dead_seed_config.color_list.length) ∧
      (0 < dead_seed_config.color_list_length)) ∧
    ((∃ m1, do_resize dead_seed_config sample_input main_start = some m1 ∧ m1.sim.tick_count = 0) ∧
      (∃ m1, do_reset dead_seed_config sample_input main_start = some m1 ∧ m1.sim.tick_count = 0) ∧
      (∀ m1, do_resize dead_seed_config sample_input main_start = some m1 →
        ∃ a b c a2 t, realloc_field main_start.sim.arr (sample_input._w * sample_input._h) sample_input.junk_arr = some a ∧
          realloc_field main_start.sim.buf (sample_input._w * sample_input._h) sample_input.junk_buf = some b ∧
          realloc_field main_start.sim.hist (sample_input._w * sample_input._h) sample_input.junk_hist = some c ∧
          clear_field a (sample_input._w * sample_input._h) = some a2 ∧
          init_field { arr := a2, buf := b, hist := c, tick_count := main_start.sim.tick_count }
            sample_input._w sample_input._h dead_seed_config.init_prob dead_seed_config.init_ticks sample_input.rand = some t ∧
          m1.sim = { t with tick_count := 0 }) ∧
      (∀ m1, do_reset dead_seed_config sample_input main_start = some m1 →
        ∃ a2 t, clear_field main_start.sim.arr (main_start.w * main_start.h) = some a2 ∧
          init_field { main_start.sim with arr := a2 } main_start.w main_start.h dead_seed_config.init_prob dead_seed_config.init_ticks sample_input.rand
            = some t ∧
          m1.sim = { t with tick_count := 0 }) ∧
      (dispatch dead_seed_config sample_input main_start = Action.resize ∨ dispatch dead_seed_config sample_input main_start = Action.reset →
        ∃ m1, frame_action dead_seed_config sample_input main_start = some (some m1) ∧ m1.sim.tick_count = 0)) :=
  ⟨⟨by decide, by decide, by decide, by decide, by decide, by decide, by decide⟩,
    reset_zeroes_counter dead_seed_config sample_input main_start (by decide) (by decide) (by decide) (by decide) (by decide) (by decide) (by decide)⟩

theorem warm_up_reaches_sentinel :
    ∃ t, init_field ⟨List.replicate 6 0, List.replicate 6 0, List.replicate 6 0, 0⟩ 3 2
        dead_seed_config.init_prob dead_seed_config.init_ticks sample_input.rand = some t ∧
      t.tick_count = ULLONG_MAX := by
  refine ⟨⟨List.replicate 6 0, List.replicate 6 0, List.replicate 6 0, ULLONG_MAX⟩, ?_, rfl⟩
  decide

/-! ## Seeding -/

/-- C14: on an active buffer of length `w * h`, the noise loop of `init_field`
returns and sets cell `i` to 1 when `r_i mod 100 < probability` and to 0
otherwise, `r_i` being the `i`-th value of `rand()`, one value per cell;
`init_field` is that grid followed by the warm-up ticks, and with no warm-up
tick it returns that grid with scratch, history and counter untouched.  For
every sequence of draws probability 0 gives an all-dead grid of length `w * h`
and probability 100 an all-alive one. -/
theorem seeding_rule (s : Sim) (w h probability ticks : Int) (rand : Nat → Nat)
    (ha : (s.arr.length : Int) = w * h) :
    ∃ a : Field, (a.length : Int) = w * h ∧
      (∀ i : Nat, (i : Int) < w * h →
        a[i]? = some (if ((rand i : Int) % 100) < probability then 1 else 0)) ∧
      init_field s w h probability ticks rand = tick_n ticks.toNat { s with arr := a } w h ∧
      (ticks ≤ 0 → init_field s w h probability ticks rand = some { s with arr := a }) ∧
      (probability = 0 → ∀ c ∈ a, c = 0) ∧
      (probability = 100 → ∀ c ∈ a, c = 1) := by
  obtain ⟨a, hloop, hmap, hlen⟩ := write_loop_length (seed_step probability rand)
    (fun i => if ((rand i : Int) % 100) < probability then 1 else 0) (fun _ _ => rfl)
    s.arr (w * h) ha
  have hinit : init_field s w h probability ticks rand
      = tick_n ticks.toNat { s with arr := a } w h := by
    simp [init_field, hloop]
  refine ⟨a, hlen, ?_, hinit, ?_, ?_, ?_⟩
  · intro i hi
    have hi2 : i < (w * h).toNat := by omega
    rw [hmap, List.getElem?_map, List.getElem?_range hi2]
    rfl
  · intro ht
    rw [hinit, Int.toNat_eq_zero.mpr ht]
    rfl
  · intro hp c hc
    rw [hmap, List.mem_map] at hc
    obtain ⟨i, -, rfl⟩ := hc
    rw [if_neg]
    rw [hp]
    have := Int.emod_nonneg (rand i : Int) (by decide : (100 : Int) ≠ 0)
    omega
  · intro hp c hc
    rw [hmap, List.mem_map] at hc
    obtain ⟨i, -, rfl⟩ := hc
    rw [if_pos]
    rw [hp]
    exact Int.emod_lt_of_pos _ (by decide)

/-- C14, witness: seeding the one-cell buffers `main` starts with, at probability
100 and without warm-up. -/
theorem seeding_rule_witness :
    (((main_start.sim.arr.length : Int) = (1 : Int) * (1 : Int))) ∧
    (∃ a : Field, (a.length : Int) = (1 : Int) * (1 : Int) ∧
        (∀ i : Nat, (i : Int) < (1 : Int) * (1 : Int) →
          a[i]? = some (if ((sample_input.rand i : Int) % 100) < (100 : Int) then 1 else 0)) ∧
        init_field main_start.sim (1 : Int) (1 : Int) (100 : Int) (0 : Int) sample_input.rand = tick_n (0 : Int).toNat { main_start.sim with arr := a } (1 : Int) (1 : Int) ∧
        ((0 : Int) ≤ 0 → init_field main_start.sim (1 : Int) (1 : Int) (100 : Int) (0 : Int) sample_input.rand = some { main_start.sim with arr := a }) ∧
        ((100 : Int) = 0 → ∀ c ∈ a, c = 0) ∧
        ((100 : Int) = 100 → ∀ c ∈ a, c = 1)) :=
  ⟨by decide,
    seeding_rule main_start.sim ((1 : Int)) ((1 : Int)) ((100 : Int)) ((0 : Int)) sample_input.rand (by decide)⟩

/-! ## The buffers after a tick -/

/-- C15: a tick on three buffers of length `w * h` returns; afterwards the
active buffer is the generation the loops wrote into the old scratch buffer and
the scratch buffer is the old active buffer, equal to it at every index (the
exchange done by `swap_array`). -/
theorem tick_swaps_buffers (w h : Int) (hw : 0 ≤ w) (hh : 0 ≤ h) (s : Sim)
    (ha : (s.arr.length : Int) = w * h) (hb : (s.buf.length : Int) = w * h)
    (hhist : (s.hist.length : Int) = w * h) :
    ∃ r t, tick_loop s.arr s.buf s.hist w h = some r ∧ tick s w h = some t ∧
      t.arr = r.1 ∧ t.buf = s.arr ∧ swap_array (s.arr, r.1) = (t.arr, t.buf) ∧
      (∀ i : Nat, (i : Int) < w * h → t.buf[i]? = s.arr[i]?) ∧
      (∀ x y : Int, 0 ≤ x → x < w → 0 ≤ y → y < h →
        t.arr[(y * w + x).toNat]? = check_state s.arr w h x y) := by
  refine ⟨_, _, tick_loop_eq hw hh ha hb hhist, tick_eq hw hh ha hb hhist, ?_, ?_, ?_, ?_, ?_⟩
  · split_ifs <;> rfl
  · split_ifs <;> rfl
  · split_ifs <;> rfl
  · intro i _
    split_ifs <;> rfl
  · intro x y hx0 hxw hy0 hyh
    rw [check_state_eq ha hx0 hxw hy0 hyh]
    split_ifs <;> exact next_gen_get hx0 hxw hy0 hyh

/-- C15, witness: a 3 by 2 grid with four live cells and a scratch buffer full of
sevens. -/
theorem tick_swaps_buffers_witness :
    ((0 ≤ (3 : Int)) ∧
      (0 ≤ (2 : Int)) ∧
      (((⟨[1, 1, 1, 1, 0, 0], [7, 7, 7, 7, 7, 7], [0, 0, 0, 0, 0, 0], 3⟩ : Sim).arr.length : Int) = (3 : Int) * (2 : Int)) ∧
      (((⟨[1, 1, 1, 1, 0, 0], [7, 7, 7, 7, 7, 7], [0, 0, 0, 0, 0, 0], 3⟩ : Sim).buf.length : Int) = (3 : Int) * (2 : Int)) ∧
      (((⟨[1, 1, 1, 1, 0, 0], [7, 7, 7, 7, 7, 7], [0, 0, 0, 0, 0, 0], 3⟩ : Sim).hist.length : Int) = (3 : Int) * (2 : Int))) ∧
    (∃ r t, tick_loop (⟨[1, 1, 1, 1, 0, 0], [7, 7, 7, 7, 7, 7], [0, 0, 0, 0, 0, 0], 3⟩ : Sim).arr (⟨[1, 1, 1, 1, 0, 0], [7, 7, 7, 7, 7, 7], [0, 0, 0, 0, 0, 0], 3⟩ : Sim).buf (⟨[1, 1, 1, 1, 0, 0], [7, 7, 7, 7, 7, 7], [0, 0, 0, 0, 0, 0], 3⟩ : Sim).hist (3 : Int) (2 : Int) = some r ∧ tick (⟨[1, 1, 1, 1, 0, 0], [7, 7, 7, 7, 7, 7], [0, 0, 0, 0, 0, 0], 3⟩ : Sim) (3 : Int) (2 : Int) = some t ∧
        t.arr = r.1 ∧ t.buf = (⟨[1, 1, 1, 1, 0, 0], [7, 7, 7, 7, 7, 7], [0, 0, 0, 0, 0, 0], 3⟩ : Sim).arr ∧ swap_array ((⟨[1, 1, 1, 1, 0, 0], [7, 7, 7, 7, 7, 7], [0, 0, 0, 0, 0, 0], 3⟩ : Sim).arr, r.1) = (t.arr, t.buf) ∧
        (∀ i : Nat, (i : Int) < (3 : Int) * (2 : Int) → t.buf[i]? = (⟨[1, 1, 1, 1, 0, 0], [7, 7, 7, 7, 7, 7], [0, 0, 0, 0, 0, 0], 3⟩ : Sim).arr[i]?) ∧
        (∀ x y : Int, 0 ≤ x → x < (3 : Int) → 0 ≤ y → y < (2 : Int) →
          t.arr[(y * (3 : Int) + x).toNat]? = check_state (⟨[1, 1, 1, 1, 0, 0], [7, 7, 7, 7, 7, 7], [0, 0, 0, 0, 0, 0], 3⟩ : Sim).arr (3 : Int) (2 : Int) x y)) :=
  ⟨⟨by decide, by decide, by decide, by decide, by decide⟩,
    tick_swaps_buffers ((3 : Int)) ((2 : Int)) (by decide) (by decide) ((⟨[1, 1, 1, 1, 0, 0], [7, 7, 7, 7, 7, 7], [0, 0, 0, 0, 0, 0], 3⟩ : Sim)) (by decide) (by decide) (by decide)⟩

/-! ## The colour index -/

theorem emod_eq_of_repr {a b r k : Int} (h0 : 0 ≤ r) (h1 : r < b) (h : a = r + b * k) :
    a % b = r := by
  rw [h, Int.add_mul_emod_self_left, Int.emod_eq_of_lt h0 h1]

theorem tmod_fix_eq_emod (a : Int) {b : Int} (hb : 0 < b) :
    (if a.tmod b < 0 then a.tmod b + b else a.tmod b) = a % b := by
  have h1 := neg_lt_tmod a hb
  have h2 := Int.tmod_lt_of_pos a hb
  have h3 := Int.tmod_add_tdiv a b
  split_ifs with hneg
  · symm
    apply emod_eq_of_repr (k := a.tdiv b - 1) (by omega) (by omega)
    rw [mul_sub, mul_one]
    omega
  · symm
    apply emod_eq_of_repr (k := a.tdiv b) (by omega) (by omega)
    omega

theorem color_switch_eq (clr_idx step : Int) (color_list : List Int) {length : Int}
    (hl : length = color_list.length) (hpos : 0 < length) :
    color_switch clr_idx step color_list length = some ((clr_idx + step) % length) := by
  unfold color_switch
  rw [if_neg (by omega)]
  simp only [tmod_fix_eq_emod _ hpos]
  have h0 := Int.emod_nonneg (clr_idx + step) (by omega : length ≠ 0)
  have h1 := Int.emod_lt_of_pos (clr_idx + step) hpos
  rw [if_pos ⟨h0, by omega⟩]

/-- C16: per branch of the frame loop, for a palette of positive length: the
resize branch returns with the colour index unchanged; the reset branch and
the key `f` return with `(index + 1) mod length`; the key `F` returns with
`(index - 1) mod length`; quit leaves the loop and a frame without action
returns the state as it is; the two colour keys change no buffer, no dimension
and not the tick counter; and the `tick` that ends the frame keeps the colour
index that the if-chain left. -/
theorem colour_index_per_action (cfg : Config) (inp : FrameInput) (m : MainState)
    (hmw : 0 ≤ m.w) (hmh : 0 ≤ m.h) (hm : sized m.w m.h m.sim)
    (hiw : 1 ≤ inp._w) (hih : 1 ≤ inp._h)
    (hcl : cfg.color_list_length = cfg.color_list.length) (hne : 0 < cfg.color_list_length) :
    (dispatch cfg inp m = Action.resize →
      ∃ m1, frame_action cfg inp m = some (some m1) ∧ m1.clr_idx = m.clr_idx) ∧
    (dispatch cfg inp m = Action.reset →
      ∃ m1, frame_action cfg inp m = some (some m1) ∧
        m1.clr_idx = (m.clr_idx + 1) % cfg.color_list_length) ∧
    (dispatch cfg inp m = Action.color_forward →
      frame_action cfg inp m =
        some (some { m with clr_idx := (m.clr_idx + 1) % cfg.color_list_length })) ∧
    (dispatch cfg inp m = Action.color_backward →
      frame_action cfg inp m =
        some (some { m with clr_idx := (m.clr_idx + -1) % cfg.color_list_length })) ∧
    (dispatch cfg inp m = Action.quit → frame_action cfg inp m = some none) ∧
    (dispatch cfg inp m = Action.nothing → frame_action cfg inp m = some (some m)) ∧
    (dispatch cfg inp m = Action.color_forward ∨ dispatch cfg inp m = Action.color_backward →
      ∃ m1, frame_action cfg inp m = some (some m1) ∧ m1.sim = m.sim ∧ m1.w = m.w ∧
        m1.h = m.h) ∧
    (∀ m1, frame_action cfg inp m = some (some m1) →
      ∃ m2, frame cfg inp m = some (some m2) ∧ m2.clr_idx = m1.clr_idx) ∧
    (frame_action cfg inp m = some none → frame cfg inp m = some none) := by
  have hf := color_switch_eq m.clr_idx 1 cfg.color_list hcl hne
  have hb := color_switch_eq m.clr_idx (-1) cfg.color_list hcl hne
  refine ⟨?_, ?_, ?_, ?_, ?_, ?_, ?_, ?_, ?_⟩
  · intro hd
    obtain ⟨r1, hr1, -, -, hc1, -, -⟩ := do_resize_sized cfg inp m hiw hih
    exact ⟨r1, by simp [frame_action, hd, hr1], hc1⟩
  · intro hd
    obtain ⟨r2, hr2, -, -, -, -⟩ := do_reset_sized cfg inp m hmw hmh hm hcl hne
    refine ⟨r2, by simp [frame_action, hd, hr2], ?_⟩
    unfold do_reset at hr2
    simp only [Option.bind_eq_bind, Option.bind_eq_some, pure] at hr2
    obtain ⟨a2, -, t, -, i, hi, e⟩ := hr2
    rw [hf] at hi
    cases hi
    cases e
    rfl
  · intro hd
    simp [frame_action, hd, hf]
  · intro hd
    simp [frame_action, hd, hb]
  · intro hd
    simp [frame_action, hd]
  · intro hd
    simp [frame_action, hd]
  · intro hd
    rcases hd with hd | hd
    · exact ⟨{ m with clr_idx := (m.clr_idx + 1) % cfg.color_list_length },
        by simp only [frame_action, hd, hf, Option.map_some'], rfl, rfl, rfl⟩
    · exact ⟨{ m with clr_idx := (m.clr_idx + -1) % cfg.color_list_length },
        by simp only [frame_action, hd, hb, Option.map_some'], rfl, rfl, rfl⟩
  · intro m1 h1
    obtain ⟨r, hr, hprop⟩ := frame_action_sized cfg inp m hmw hmh hm hiw hih hcl hne
    rw [h1] at hr
    cases hr
    obtain ⟨-, -, h3⟩ := hprop m1 rfl
    obtain ⟨h4, h5⟩ : 0 ≤ m1.w ∧ 0 ≤ m1.h := by
      obtain ⟨e1, e2, -⟩ := hprop m1 rfl
      omega
    obtain ⟨t, ht, -⟩ := tick_sized h4 h5 h3
    exact ⟨{ m1 with sim := t }, by simp [frame, h1, ht], rfl⟩
  · intro h1
    simp [frame, h1]

/-- C16, witness: a 3 by 2 terminal with the counter at the sentinel and the
colour index at 7, so that the frame takes the reset branch and the index
wraps to 0. -/
theorem colour_index_per_action_witness :
    ((0 ≤ stagnant_state.w) ∧
      (0 ≤ stagnant_state.h) ∧
      (sized stagnant_state.w stagnant_state.h stagnant_state.sim) ∧
      (1 ≤ sample_input._w) ∧
      (1 ≤ sample_input._h) ∧
      (default_config.color_list_length = default_config.color_list.length) ∧
      (0 < default_config.color_list_length)) ∧
    ((dispatch default_config sample_input stagnant_state = Action.resize →
        ∃ m1, frame_action default_config sample_input stagnant_state = some (some m1) ∧ m1.clr_idx = stagnant_state.clr_idx) ∧
      (dispatch default_config sample_input stagnant_state = Action.reset →
        ∃ m1, frame_action default_config sample_input stagnant_state = some (some m1) ∧
          m1.clr_idx = (stagnant_state.clr_idx + 1) % default_config.color_list_length) ∧
      (dispatch default_config sample_input stagnant_state = Action.color_forward →
        frame_action default_config sample_input stagnant_state =
          some (some { stagnant_state with clr_idx := (stagnant_state.clr_idx + 1) % default_config.color_list_length })) ∧
      (dispatch default_config sample_input stagnant_state = Action.color_backward →
        frame_action default_config sample_input stagnant_state =
          some (some { stagnant_state with clr_idx := (stagnant_state.clr_idx + -1) % default_config.color_list_length })) ∧
      (dispatch default_config sample_input stagnant_state = Action.quit → frame_action default_config sample_input stagnant_state = some none) ∧
      (dispatch default_config sample_input stagnant_state = Action.nothing → frame_action default_config sample_input stagnant_state = some (some stagnant_state)) ∧
      (dispatch default_config sample_input stagnant_state = Action.color_forward ∨ dispatch default_config sample_input stagnant_state = Action.color_backward →
        ∃ m1, frame_action default_config sample_input stagnant_state = some (some m1) ∧ m1.sim = stagnant_state.sim ∧ m1.w = stagnant_state.w ∧
          m1.h = stagnant_state.h) ∧
      (∀ m1, frame_action default_config sample_input stagnant_state = some (some m1) →
        ∃ m2, frame default_config sample_input stagnant_state = some (some m2) ∧ m2.clr_idx = m1.clr_idx) ∧
      (frame_action default_config sample_input stagnant_state = some none → frame default_config sample_input stagnant_state = some none)) :=
  ⟨⟨by decide, by decide, by decide, by decide, by decide, by decide, by decide⟩,
    colour_index_per_action default_config sample_input stagnant_state (by decide) (by decide) (by decide) (by decide) (by decide) (by decide) (by decide)⟩

/-- C17: for a palette of length at least 1, an index in `[0, length)` and any
step, in particular +1 and -1, `color_switch` returns the mathematical
`(index + step) mod length`, which lies in `[0, length)`: index 0 with step -1
gives `length - 1` and index `length - 1` with step +1 gives 0; a forward
switch followed by a backward one, and a backward one followed by a forward
one, give back the original index. -/
theorem color_switch_wraps (color_list : List Int) (length idx step : Int)
    (hl : length = color_list.length) (hpos : 1 ≤ length)
    (hi0 : 0 ≤ idx) (hi1 : idx < length) :
    color_switch idx step color_list length = some ((idx + step) % length) ∧
    0 ≤ (idx + step) % length ∧ (idx + step) % length < length ∧
    color_switch 0 (-1) color_list length = some (length - 1) ∧
    color_switch (length - 1) 1 color_list length = some 0 ∧
    (∃ i, color_switch idx 1 color_list length = some i ∧
      color_switch i (-1) color_list length = some idx) ∧
    (∃ i, color_switch idx (-1) color_list length = some i ∧
      color_switch i 1 color_list length = some idx) := by
  have hp : 0 < length := by omega
  have hne : length ≠ 0 := by omega
  have hdown : ((0 : Int) + -1) % length = length - 1 :=
    emod_eq_of_repr (k := -1) (by omega) (by omega) (by rw [mul_neg, mul_one]; omega)
  have hup : (length - 1 + 1) % length = 0 :=
    emod_eq_of_repr (k := 1) (le_refl _) hp (by rw [mul_one]; omega)
  refine ⟨color_switch_eq _ _ _ hl hp, Int.emod_nonneg _ hne, Int.emod_lt_of_pos _ hp, ?_, ?_,
    ?_, ?_⟩
  · rw [color_switch_eq _ _ _ hl hp, hdown]
  · rw [color_switch_eq _ _ _ hl hp, hup]
  · refine ⟨_, color_switch_eq _ _ _ hl hp, ?_⟩
    rw [color_switch_eq _ _ _ hl hp]
    congr 1
    rcases lt_or_ge (idx + 1) length with hlt | hge
    · rw [Int.emod_eq_of_lt (by omega) hlt]
      exact emod_eq_of_repr (k := 0) hi0 hi1 (by rw [mul_zero]; omega)
    · have e : idx + 1 = length - 1 + 1 := by omega
      rw [e, hup]
      exact emod_eq_of_repr (k := -1) hi0 hi1 (by rw [mul_neg, mul_one]; omega)
  · refine ⟨_, color_switch_eq _ _ _ hl hp, ?_⟩
    rw [color_switch_eq _ _ _ hl hp]
    congr 1
    rcases lt_or_ge 0 idx with hlt | hge
    · rw [Int.emod_eq_of_lt (by omega : 0 ≤ idx + -1) (by omega)]
      exact emod_eq_of_repr (k := 0) hi0 hi1 (by rw [mul_zero]; omega)
    · have e : idx = 0 := by omega
      subst e
      rw [hdown, hup]

/-- C17, witness: the default palette of eight colours, index 0, one step back. -/
theorem color_switch_wraps_witness :
    (((8 : Int) = default_config.color_list.length) ∧
      (1 ≤ (8 : Int)) ∧
      (0 ≤ (0 : Int)) ∧
      ((0 : Int) < (8 : Int))) ∧
    (color_switch (0 : Int) (-1 : Int) default_config.color_list (8 : Int) = some (((0 : Int) + (-1 : Int)) % (8 : Int)) ∧
      0 ≤ ((0 : Int) + (-1 : Int)) % (8 : Int) ∧ ((0 : Int) + (-1 : Int)) % (8 : Int) < (8 : Int) ∧
      color_switch 0 (-1) default_config.color_list (8 : Int) = some ((8 : Int) - 1) ∧
      color_switch ((8 : Int) - 1) 1 default_config.color_list (8 : Int) = some 0 ∧
      (∃ i, color_switch (0 : Int) 1 default_config.color_list (8 : Int) = some i ∧
        color_switch i (-1) default_config.color_list (8 : Int) = some (0 : Int)) ∧
      (∃ i, color_switch (0 : Int) (-1) default_config.color_list (8 : Int) = some i ∧
        color_switch i 1 default_config.color_list (8 : Int) = some (0 : Int))) :=
  ⟨⟨by decide, by decide, by decide, by decide⟩,
    color_switch_wraps default_config.color_list ((8 : Int)) ((0 : Int)) ((-1 : Int)) (by decide) (by decide) (by decide) (by decide)⟩

/-! ## Detection over two generations -/

/-- C18, counterexample: on the 3 by 3 grid with two live cells, a history full
of ones and the counter at `2 ^ 64 - 3`, both of two consecutive ticks detect a
change and `step (step g)` is the dead grid, not `g`, yet the second increment
leaves the counter at `ULLONG_MAX`. -/
theorem sentinel_value_after_two_changes :
    ∃ t u, tick ⟨[1, 1, 0, 0, 0, 0, 0, 0, 0], List.replicate 9 0, List.replicate 9 1,
        2 ^ 64 - 3⟩ 3 3 = some t ∧
      (∃ i : Nat, (i : Int) < 3 * 3 ∧ t.arr[i]? ≠ (List.replicate 9 1)[i]?) ∧
      tick t 3 3 = some u ∧ u.arr = List.replicate 9 0 ∧
      u.arr ≠ [1, 1, 0, 0, 0, 0, 0, 0, 0] ∧ u.tick_count = ULLONG_MAX := by
  refine ⟨⟨List.replicate 9 0, [1, 1, 0, 0, 0, 0, 0, 0, 0], [1, 1, 0, 0, 0, 0, 0, 0, 0],
      2 ^ 64 - 2⟩,
    ⟨List.replicate 9 0, List.replicate 9 0, List.replicate 9 0, ULLONG_MAX⟩,
    by decide, ⟨0, by decide, by decide⟩, by decide, rfl, by decide, rfl⟩

/-- C18, amended: two consecutive ticks on buffers of length `w * h` return, the
first with the generation `step g` of the old active grid `g` and the second
with `step (step g)`, for any history.  When the first tick detects a change,
the history afterwards is `g`, the grid that was active before that tick and is
now the scratch buffer; the second tick leaves `change_flag` at 0, the branch
that assigns `ULLONG_MAX` to the counter, iff `step (step g) = g`; and the
counter equals `ULLONG_MAX` after the second tick iff `step (step g) = g` or
the 64-bit increment of the counter left by the first tick is itself
`ULLONG_MAX`.  So whenever `step (step g) = g`, as for a still life or a
period-2 oscillator, the counter is `ULLONG_MAX` after the first or after the
second tick. -/
theorem two_generation_detection (w h : Int) (hw : 0 ≤ w) (hh : 0 ≤ h) (s : Sim)
    (ha : (s.arr.length : Int) = w * h) (hb : (s.buf.length : Int) = w * h)
    (hhist : (s.hist.length : Int) = w * h) :
    ∃ t u r2, tick s w h = some t ∧ tick t w h = some u ∧
      tick_loop t.arr t.buf t.hist w h = some r2 ∧
      t.arr = next_gen s.arr w h ∧ u.arr = next_gen (next_gen s.arr w h) w h ∧
      ((∃ i : Nat, (i : Int) < w * h ∧ t.arr[i]? ≠ s.hist[i]?) →
        t.hist = s.arr ∧ t.hist = t.buf ∧
        (r2.2 = false ↔ u.arr = s.arr) ∧
        (r2.2 = false → u.tick_count = ULLONG_MAX) ∧
        (u.tick_count = ULLONG_MAX ↔
          u.arr = s.arr ∨ (t.tick_count + 1) % 2 ^ 64 = ULLONG_MAX)) ∧
      (u.arr = s.arr → t.tick_count = ULLONG_MAX ∨ u.tick_count = ULLONG_MAX) := by
  have hs : sized w h s := ⟨ha, hb, hhist⟩
  obtain ⟨t, ht, hts, hta, htb⟩ := tick_sized hw hh hs
  obtain ⟨u, hu, -, hua, -⟩ := tick_sized hw hh hts
  have hl2 := tick_loop_eq hw hh hts.1 hts.2.1 hts.2.2
  have ht2 := tick_eq hw hh ha hb hhist
  have hu2 := tick_eq hw hh hts.1 hts.2.1 hts.2.2
  rw [ht] at ht2
  rw [hu] at hu2
  have hlen : ((next_gen s.arr w h).length : Int) = w * h := by
    rw [next_gen_length]; omega
  have hdiff := ne_iff_cells hlen hhist
  have hchg : (∃ i : Nat, (i : Int) < w * h ∧ t.arr[i]? ≠ s.hist[i]?) → t.hist = s.arr ∧
      t.tick_count = (s.tick_count + 1) % 2 ^ 64 := by
    intro hex
    rw [hta] at hex
    have hne : ¬ s.hist = next_gen s.arr w h := fun e => (hdiff.mpr hex) e.symm
    rw [if_neg hne] at ht2
    cases ht2
    exact ⟨rfl, rfl⟩
  refine ⟨t, u, _, ht, hu, hl2, hta, by rw [hua, hta], ?_, ?_⟩
  · intro hex
    obtain ⟨hth, -⟩ := hchg hex
    have huu : u.arr = next_gen t.arr w h := hua
    refine ⟨hth, by rw [hth, htb], ?_, ?_, ?_⟩
    · simp only [ne_eq, decide_eq_false_iff_not, not_not]
      rw [huu, hth]
      exact eq_comm
    · intro hflag
      simp only [ne_eq, decide_eq_false_iff_not, not_not] at hflag
      rw [if_pos hflag] at hu2
      cases hu2
      rfl
    · rw [huu, ← hth]
      by_cases hc : t.hist = next_gen t.arr w h
      · rw [if_pos hc] at hu2
        cases hu2
        exact ⟨fun _ => Or.inl hc.symm, fun _ => rfl⟩
      · rw [if_neg hc] at hu2
        cases hu2
        constructor
        · intro e
          exact Or.inr e
        · intro e
          rcases e with e | e
          · exact absurd e.symm hc
          · exact e
  · intro hper
    by_cases hc1 : s.hist = next_gen s.arr w h
    · left
      rw [if_pos hc1] at ht2
      cases ht2
      rfl
    · right
      have hex : ∃ i : Nat, (i : Int) < w * h ∧ t.arr[i]? ≠ s.hist[i]? := by
        rw [hta]
        exact hdiff.mp (fun e => hc1 e.symm)
      obtain ⟨hth, -⟩ := hchg hex
      have hc : t.hist = next_gen t.arr w h := by
        rw [hth, ← hua, hper]
      rw [if_pos hc] at hu2
      cases hu2
      rfl

/-- C18, witness: the 3 by 3 grid with a live middle row, a period-2 oscillator,
with a history buffer full of the byte 255. -/
theorem two_generation_detection_witness :
    ((0 ≤ (3 : Int)) ∧
      (0 ≤ (3 : Int)) ∧
      (((⟨[0, 0, 0, 1, 1, 1, 0, 0, 0], List.replicate 9 0, List.replicate 9 255, 0⟩ : Sim).arr.length : Int) = (3 : Int) * (3 : Int)) ∧
      (((⟨[0, 0, 0, 1, 1, 1, 0, 0, 0], List.replicate 9 0, List.replicate 9 255, 0⟩ : Sim).buf.length : Int) = (3 : Int) * (3 : Int)) ∧
      (((⟨[0, 0, 0, 1, 1, 1, 0, 0, 0], List.replicate 9 0, List.replicate 9 255, 0⟩ : Sim).hist.length : Int) = (3 : Int) * (3 : Int))) ∧
    (∃ t u r2, tick (⟨[0, 0, 0, 1, 1, 1, 0, 0, 0], List.replicate 9 0, List.replicate 9 255, 0⟩ : Sim) (3 : Int) (3 : Int) = some t ∧ tick t (3 : Int) (3 : Int) = some u ∧
        tick_loop t.arr t.buf t.hist (3 : Int) (3 : Int) = some r2 ∧
        t.arr = next_gen (⟨[0, 0, 0, 1, 1, 1, 0, 0, 0], List.replicate 9 0, List.replicate 9 255, 0⟩ : Sim).arr (3 : Int) (3 : Int) ∧ u.arr = next_gen (next_gen (⟨[0, 0, 0, 1, 1, 1, 0, 0, 0], List.replicate 9 0, List.replicate 9 255, 0⟩ : Sim).arr (3 : Int) (3 : Int)) (3 : Int) (3 : Int) ∧
        ((∃ i : Nat, (i : Int) < (3 : Int) * (3 : Int) ∧ t.arr[i]? ≠ (⟨[0, 0, 0, 1, 1, 1, 0, 0, 0], List.replicate 9 0, List.replicate 9 255, 0⟩ : Sim).hist[i]?) →
          t.hist = (⟨[0, 0, 0, 1, 1, 1, 0, 0, 0], List.replicate 9 0, List.replicate 9 255, 0⟩ : Sim).arr ∧ t.hist = t.buf ∧
          (r2.2 = false ↔ u.arr = (⟨[0, 0, 0, 1, 1, 1, 0, 0, 0], List.replicate 9 0, List.replicate 9 255, 0⟩ : Sim).arr) ∧
          (r2.2 = false → u.tick_count = ULLONG_MAX) ∧
          (u.tick_count = ULLONG_MAX ↔
            u.arr = (⟨[0, 0, 0, 1, 1, 1, 0, 0, 0], List.replicate 9 0, List.replicate 9 255, 0⟩ : Sim).arr ∨ (t.tick_count + 1) % 2 ^ 64 = ULLONG_MAX)) ∧
        (u.arr = (⟨[0, 0, 0, 1, 1, 1, 0, 0, 0], List.replicate 9 0, List.replicate 9 255, 0⟩ : Sim).arr → t.tick_count = ULLONG_MAX ∨ u.tick_count = ULLONG_MAX)) :=
  ⟨⟨by decide, by decide, by decide, by decide, by decide⟩,
    two_generation_detection ((3 : Int)) ((3 : Int)) (by decide) (by decide) ((⟨[0, 0, 0, 1, 1, 1, 0, 0, 0], List.replicate 9 0, List.replicate 9 255, 0⟩ : Sim)) (by decide) (by decide) (by decide)⟩

/-! ## Cell values -/

theorem next_gen_binary (arr : Field) (w h : Int) :
    ∀ c ∈ next_gen arr w h, c = 0 ∨ c = 1 := by
  intro c hc
  unfold next_gen at hc
  rw [List.mem_map] at hc
  obtain ⟨n, -, rfl⟩ := hc
  exact rule_zero_or_one _ _

theorem tick_n_binary {w h : Int} (hw : 0 ≤ w) (hh : 0 ≤ h) (n : Nat) :
    ∀ {s : Sim}, sized w h s → (∀ c ∈ s.arr, c = 0 ∨ c = 1) →
      ∃ t, tick_n n s w h = some t ∧ sized w h t ∧ ∀ c ∈ t.arr, c = 0 ∨ c = 1 := by
  induction n with
  | zero => intro s hs hd; exact ⟨s, rfl, hs, hd⟩
  | succ n ih =>
    intro s hs _
    obtain ⟨t, ht, hts, hta, -⟩ := tick_sized hw hh hs
    obtain ⟨u, hu, hus, hud⟩ := ih hts (by rw [hta]; exact next_gen_binary _ w h)
    exact ⟨u, by simp [tick_n, ht, hu], hus, hud⟩

theorem alive_neighbours_le (arr : Field) (w h x y : Int) :
    alive_neighbours arr w h x y ≤ 8 := by
  unfold alive_neighbours
  refine le_trans (List.countP_le_length _) ?_
  rw [List.length_map, moore_offsets_eq]
  exact le_refl _

/-- C19: on buffers of length `w * h` with arbitrary cell values, `tick`
returns with every active cell 0 or 1, and `init_field` (seeding, then any
number of warm-up ticks) returns with every active cell 0 or 1; on the grid
left by `init_field` and on the grid after any number `k` of further ticks,
every cell is 0 or 1 and the sum computed by the loop of `check_state` at any
`(x, y)` is the number of alive in-grid Moore neighbours and at most 8. -/
theorem cells_are_binary (w h : Int) (hw : 0 ≤ w) (hh : 0 ≤ h) (s : Sim)
    (ha : (s.arr.length : Int) = w * h) (hb : (s.buf.length : Int) = w * h)
    (hhist : (s.hist.length : Int) = w * h) (probability ticks : Int) (rand : Nat → Nat) :
    (∃ t, tick s w h = some t ∧ ∀ c ∈ t.arr, c = 0 ∨ c = 1) ∧
    (∃ t, init_field s w h probability ticks rand = some t ∧
      (∀ c ∈ t.arr, c = 0 ∨ c = 1) ∧
      ∀ k : Nat, ∃ u, tick_n k t w h = some u ∧ (∀ c ∈ u.arr, c = 0 ∨ c = 1) ∧
        ∀ x y : Int, neighbour_sum u.arr w h x y = some (alive_neighbours u.arr w h x y) ∧
          alive_neighbours u.arr w h x y ≤ 8) := by
  have hs : sized w h s := ⟨ha, hb, hhist⟩
  constructor
  · obtain ⟨t, ht, -, hta, -⟩ := tick_sized hw hh hs
    exact ⟨t, ht, by rw [hta]; exact next_gen_binary _ w h⟩
  · obtain ⟨a, hloop, hmap, hlen⟩ := write_loop_length (seed_step probability rand)
      (fun i => if ((rand i : Int) % 100) < probability then 1 else 0) (fun _ _ => rfl)
      s.arr (w * h) ha
    have hbin : ∀ c ∈ a, c = 0 ∨ c = 1 := by
      intro c hc
      rw [hmap, List.mem_map] at hc
      obtain ⟨i, -, rfl⟩ := hc
      split_ifs
      · right; rfl
      · left; rfl
    obtain ⟨t, ht, hts, htb⟩ := tick_n_binary hw hh ticks.toNat
      (s := { s with arr := a }) ⟨hlen, hb, hhist⟩ hbin
    refine ⟨t, by simp [init_field, hloop, ht], htb, ?_⟩
    intro k
    obtain ⟨u, hu, hus, hub⟩ := tick_n_binary hw hh k hts htb
    refine ⟨u, hu, hub, ?_⟩
    intro x y
    rw [neighbour_sum_eq hus.1, around_eq_alive_neighbours hub]
    exact ⟨rfl, alive_neighbours_le _ _ _ _ _⟩

/-- C19, witness: three 3 by 2 buffers full of bytes other than 0 and 1. -/
theorem cells_are_binary_witness :
    ((0 ≤ (3 : Int)) ∧
      (0 ≤ (2 : Int)) ∧
      (((⟨[9, 8, 7, 6, 5, 4], [3, 3, 3, 3, 3, 3], [255, 0, 255, 0, 255, 0], 0⟩ : Sim).arr.length : Int) = (3 : Int) * (2 : Int)) ∧
      (((⟨[9, 8, 7, 6, 5, 4], [3, 3, 3, 3, 3, 3], [255, 0, 255, 0, 255, 0], 0⟩ : Sim).buf.length : Int) = (3 : Int) * (2 : Int)) ∧
      (((⟨[9, 8, 7, 6, 5, 4], [3, 3, 3, 3, 3, 3], [255, 0, 255, 0, 255, 0], 0⟩ : Sim).hist.length : Int) = (3 : Int) * (2 : Int))) ∧
    ((∃ t, tick (⟨[9, 8, 7, 6, 5, 4], [3, 3, 3, 3, 3, 3], [255, 0, 255, 0, 255, 0], 0⟩ : Sim) (3 : Int) (2 : Int) = some t ∧ ∀ c ∈ t.arr, c = 0 ∨ c = 1) ∧
      (∃ t, init_field (⟨[9, 8, 7, 6, 5, 4], [3, 3, 3, 3, 3, 3], [255, 0, 255, 0, 255, 0], 0⟩ : Sim) (3 : Int) (2 : Int) (50 : Int) (5 : Int) sample_input.rand = some t ∧
        (∀ c ∈ t.arr, c = 0 ∨ c = 1) ∧
        ∀ k : Nat, ∃ u, tick_n k t (3 : Int) (2 : Int) = some u ∧ (∀ c ∈ u.arr, c = 0 ∨ c = 1) ∧
          ∀ x y : Int, neighbour_sum u.arr (3 : Int) (2 : Int) x y = some (alive_neighbours u.arr (3 : Int) (2 : Int) x y) ∧
            alive_neighbours u.arr (3 : Int) (2 : Int) x y ≤ 8)) :=
  ⟨⟨by decide, by decide, by decide, by decide, by decide⟩,
    cells_are_binary ((3 : Int)) ((2 : Int)) (by decide) (by decide) ((⟨[9, 8, 7, 6, 5, 4], [3, 3, 3, 3, 3, 3], [255, 0, 255, 0, 255, 0], 0⟩ : Sim)) (by decide) (by decide) (by decide) ((50 : Int)) ((5 : Int)) sample_input.rand⟩

/-! ## Index safety -/

theorem foldlM_nested {α β γ : Type} (f : β → γ → α → Option α) (l2 : List γ) :
    ∀ (l1 : List β) (init : α),
      l1.foldlM (fun a j => l2.foldlM (fun a i => f j i a) a) init =
        (l1.flatMap (fun j => l2.map (fun i => (j, i)))).foldlM (fun a p => f p.1 p.2 a) init := by
  intro l1
  induction l1 with
  | nil => intro init; rfl
  | cons j l1 ih =>
    intro init
    rw [List.foldlM_cons, List.flatMap_cons, List.foldlM_append, List.foldlM_map]
    congr 1
    funext a
    exact ih a

theorem tick_loop_cells (arr buf hist : Field) (w h : Int) :
    tick_loop arr buf hist w h =
      (tick_cells w h).foldlM (fun a p => tick_cell arr hist w h p.1 p.2 a) (buf, false) := by
  unfold tick_loop tick_cells tick_row
  exact foldlM_nested (fun j i a => tick_cell arr hist w h j i a) _ _ _

theorem cells_indices (W : Nat) : ∀ H : Nat,
    ((List.range H).flatMap (fun j => (List.range W).map (fun i => (j, i)))).map
      (fun p => p.1 * W + p.2) = List.range (H * W) := by
  intro H
  induction H with
  | zero => simp
  | succ H ih =>
    rw [List.range_succ, List.flatMap_append, List.map_append, ih, List.flatMap_singleton,
      List.map_map, Nat.succ_mul, List.range_add]
    rfl

theorem tick_cells_indices {w h : Int} (hw : 0 ≤ w) (hh : 0 ≤ h) :
    (tick_cells w h).map (fun p => p.1 * w.toNat + p.2) = List.range (w * h).toNat := by
  unfold tick_cells
  rw [cells_indices]
  congr 1
  have : ((h.toNat * w.toNat : Nat) : Int) = w * h := by
    push_cast
    rw [Int.toNat_of_nonneg hw, Int.toNat_of_nonneg hh, mul_comm]
  omega

/-- C20: for `w, h ≥ 0` and three buffers of length `w * h`: every position
that passes the bounds guard has its index `y * w + x` in `[0, w * h)`, so the
read of the active and of the history buffer and the write of the scratch
buffer at that index are defined; the summing loop of `check_state` returns at
every `(x, y)` and `check_state` returns at every in-grid cell; `tick` returns;
and its two loops evaluate exactly the cells of `tick_cells`, which are `w * h`
in number and whose indices `j * w + i` run through `0, 1, ..., w * h - 1` once
each. -/
theorem index_safety (w h : Int) (hw : 0 ≤ w) (hh : 0 ≤ h) (s : Sim)
    (ha : (s.arr.length : Int) = w * h) (hb : (s.buf.length : Int) = w * h)
    (hhist : (s.hist.length : Int) = w * h) :
    (∀ x y : Int, 0 ≤ x → x < w → 0 ≤ y → y < h →
      0 ≤ y * w + x ∧ y * w + x < w * h ∧
      (∃ v, read_cell s.arr (y * w + x) = some v) ∧
      (∃ v, read_cell s.hist (y * w + x) = some v) ∧
      (∀ v, ∃ b, write_cell s.buf (y * w + x) v = some b) ∧
      (∃ v, check_state s.arr w h x y = some v)) ∧
    (∀ (sum : Nat) (k : Int × Int), ∃ n, sum_step s.arr w h sum k = some n) ∧
    (∀ x y : Int, ∃ n, neighbour_sum s.arr w h x y = some n) ∧
    (∃ t, tick s w h = some t) ∧
    tick_loop s.arr s.buf s.hist w h =
      (tick_cells w h).foldlM (fun a p => tick_cell s.arr s.hist w h p.1 p.2 a)
        (s.buf, false) ∧
    ((tick_cells w h).length : Int) = w * h ∧
    (tick_cells w h).map (fun p => p.1 * w.toNat + p.2) = List.range (w * h).toNat := by
  refine ⟨?_, ?_, ?_, ⟨_, tick_eq hw hh ha hb hhist⟩, tick_loop_cells _ _ _ _ _, ?_,
    tick_cells_indices hw hh⟩
  · intro x y hx0 hxw hy0 hyh
    have hbd := idx_bound hx0 hxw hy0 hyh
    refine ⟨hbd.1, hbd.2, ⟨_, read_cell_eq ha hx0 hxw hy0 hyh⟩,
      ⟨_, read_cell_eq hhist hx0 hxw hy0 hyh⟩, ?_, ⟨_, check_state_eq ha hx0 hxw hy0 hyh⟩⟩
    intro v
    unfold write_cell
    rw [if_pos ⟨hbd.1, idx_toNat_lt hb hx0 hxw hy0 hyh⟩]
    exact ⟨_, rfl⟩
  · intro sum k
    exact ⟨_, sum_step_eq ha sum k⟩
  · intro x y
    exact ⟨_, neighbour_sum_eq ha x y⟩
  · have := congrArg List.length (tick_cells_indices hw hh)
    rw [List.length_map, List.length_range] at this
    rw [this]
    exact Int.toNat_of_nonneg (mul_nonneg hw hh)

/-- C20, witness: three buffers of six cells on a 3 by 2 grid. -/
theorem index_safety_witness :
    ((0 ≤ (3 : Int)) ∧
      (0 ≤ (2 : Int)) ∧
      (((⟨[1, 0, 1, 1, 0, 1], [3, 3, 3, 3, 3, 3], [0, 0, 0, 0, 0, 0], 0⟩ : Sim).arr.length : Int) = (3 : Int) * (2 : Int)) ∧
      (((⟨[1, 0, 1, 1, 0, 1], [3, 3, 3, 3, 3, 3], [0, 0, 0, 0, 0, 0], 0⟩ : Sim).buf.length : Int) = (3 : Int) * (2 : Int)) ∧
      (((⟨[1, 0, 1, 1, 0, 1], [3, 3, 3, 3, 3, 3], [0, 0, 0, 0, 0, 0], 0⟩ : Sim).hist.length : Int) = (3 : Int) * (2 : Int))) ∧
    ((∀ x y : Int, 0 ≤ x → x < (3 : Int) → 0 ≤ y → y < (2 : Int) →
        0 ≤ y * (3 : Int) + x ∧ y * (3 : Int) + x < (3 : Int) * (2 : Int) ∧
        (∃ v, read_cell (⟨[1, 0, 1, 1, 0, 1], [3, 3, 3, 3, 3, 3], [0, 0, 0, 0, 0, 0], 0⟩ : Sim).arr (y * (3 : Int) + x) = some v) ∧
        (∃ v, read_cell (⟨[1, 0, 1, 1, 0, 1], [3, 3, 3, 3, 3, 3], [0, 0, 0, 0, 0, 0], 0⟩ : Sim).hist (y * (3 : Int) + x) = some v) ∧
        (∀ v, ∃ b, write_cell (⟨[1, 0, 1, 1, 0, 1], [3, 3, 3, 3, 3, 3], [0, 0, 0, 0, 0, 0], 0⟩ : Sim).buf (y * (3 : Int) + x) v = some b) ∧
        (∃ v, check_state (⟨[1, 0, 1, 1, 0, 1], [3, 3, 3, 3, 3, 3], [0, 0, 0, 0, 0, 0], 0⟩ : Sim).arr (3 : Int) (2 : Int) x y = some v)) ∧
      (∀ (sum : Nat) (k : Int × Int), ∃ n, sum_step (⟨[1, 0, 1, 1, 0, 1], [3, 3, 3, 3, 3, 3], [0, 0, 0, 0, 0, 0], 0⟩ : Sim).arr (3 : Int) (2 : Int) sum k = some n) ∧
      (∀ x y : Int, ∃ n, neighbour_sum (⟨[1, 0, 1, 1, 0, 1], [3, 3, 3, 3, 3, 3], [0, 0, 0, 0, 0, 0], 0⟩ : Sim).arr (3 : Int) (2 : Int) x y = some n) ∧
      (∃ t, tick (⟨[1, 0, 1, 1, 0, 1], [3, 3, 3, 3, 3, 3], [0, 0, 0, 0, 0, 0], 0⟩ : Sim) (3 : Int) (2 : Int) = some t) ∧
      tick_loop (⟨[1, 0, 1, 1, 0, 1], [3, 3, 3, 3, 3, 3], [0, 0, 0, 0, 0, 0], 0⟩ : Sim).arr (⟨[1, 0, 1, 1, 0, 1], [3, 3, 3, 3, 3, 3], [0, 0, 0, 0, 0, 0], 0⟩ : Sim).buf (⟨[1, 0, 1, 1, 0, 1], [3, 3, 3, 3, 3, 3], [0, 0, 0, 0, 0, 0], 0⟩ : Sim).hist (3 : Int) (2 : Int) =
        (tick_cells (3 : Int) (2 : Int)).foldlM (fun a p => tick_cell (⟨[1, 0, 1, 1, 0, 1], [3, 3, 3, 3, 3, 3], [0, 0, 0, 0, 0, 0], 0⟩ : Sim).arr (⟨[1, 0, 1, 1, 0, 1], [3, 3, 3, 3, 3, 3], [0, 0, 0, 0, 0, 0], 0⟩ : Sim).hist (3 : Int) (2 : Int) p.1 p.2 a)
          ((⟨[1, 0, 1, 1, 0, 1], [3, 3, 3, 3, 3, 3], [0, 0, 0, 0, 0, 0], 0⟩ : Sim).buf, false) ∧
      ((tick_cells (3 : Int) (2 : Int)).length : Int) = (3 : Int) * (2 : Int) ∧
      (tick_cells (3 : Int) (2 : Int)).map (fun p => p.1 * (3 : Int).toNat + p.2) = List.range ((3 : Int) * (2 : Int)).toNat) :=
  ⟨⟨by decide, by decide, by decide, by decide, by decide⟩,
    index_safety ((3 : Int)) ((2 : Int)) (by decide) (by decide) ((⟨[1, 0, 1, 1, 0, 1], [3, 3, 3, 3, 3, 3], [0, 0, 0, 0, 0, 0], 0⟩ : Sim)) (by decide) (by decide) (by decide)⟩

end Cgol
